import Mathlib

/-
Verification development for the space-invaders game loop (src/src/game.ts).

Shallow embedding conventions:
  * JS numbers are modelled as rationals (positions, speeds, timers) or
    integers (lives, which is only ever decremented / reset).
  * Date.now, Math.random, Math.sin and Math.cos are external to the game
    logic; every per-frame call receives their results through an Env
    record (oracle parameters).
  * Rendering and audio are side-effect free here; calls to createExplosion
    are recorded in an explosionLog field (position passed to the call) so
    that spawn events are observable.
  * The per-frame ticker callback (game.ts lines 596-779) is the function
    tick below; the setTimeout callback scheduled on a bomb hit
    (lines 705-717) is bombTimeout, and pendingRespawns counts scheduled,
    not-yet-fired copies of it.
-/

namespace SpaceInvaders

/-! ## Constants (game.ts lines 16-24, 59-62, 127-129, 175-176, 213) -/

def PLAYER_SPEED : ℚ := 5
def BULLET_SPEED : ℚ := 7
def POWER_UP_DURATION : ℚ := 10000
def POWER_UP_SPAWN_INTERVAL : ℚ := 20000
def BASE_ENEMY_SPEED : ℚ := 1/2
def ENEMY_SPEED_INCREASE : ℚ := 1/5
def ENEMY_ROWS : ℕ := 3
def ENEMIES_PER_ROW : ℕ := 8
def STARTING_LIVES : ℤ := 3
def BULLET_COOLDOWN : ℚ := 500
def LASER_WIDTH : ℚ := 6
def BOMB_DROP_INTERVAL : ℚ := 60
def BOMB_SPEED : ℚ := 3

def screenWidth : ℚ := 800
def screenHeight : ℚ := 600
def playerWidth : ℚ := 40
def playerHeight : ℚ := 25

/-- Player y coordinate, set once at line 213 and never written again:
app.screen.height - playerHeight - 20 = 555. -/
def playerY : ℚ := screenHeight - playerHeight - 20

/-- Delay in milliseconds of the setTimeout scheduled on a bomb hit
(game.ts line 717). -/
def RESPAWN_DELAY_MS : ℚ := 500

/-! ## Bounding boxes and collision (game.ts lines 782-789) -/

structure Box where
  x : ℚ
  y : ℚ
  w : ℚ
  h : ℚ
  deriving DecidableEq, Repr

/-- checkCollision, game.ts lines 782-789: four strict inequalities on the
rendered bounds of the two display objects. -/
def checkCollision (a b : Box) : Bool :=
  decide (a.x + a.w > b.x) && decide (a.x < b.x + b.w) &&
  decide (a.y + a.h > b.y) && decide (a.y < b.y + b.h)

/-- Rendered bounds of the player graphic: the drawn shapes of lines
181-209 span x in [0, 40] and y in [-12, 25] (the cannon extends 12 units
above the origin), so getBounds is (x, y-12, 40, 37). -/
def playerBox (px : ℚ) : Box :=
  { x := px, y := playerY - 12, w := playerWidth, h := playerHeight + 12 }

/-! ## Entities -/

/-- Enemy (game.ts lines 4-6 and 227-263): a graphic whose drawn content
spans x in [0, 30], y in [0, 22], scaled by 0.8 + row * 0.1; the scaled
width and height are stored directly. -/
structure Enemy where
  x : ℚ
  y : ℚ
  w : ℚ
  h : ℚ
  direction : ℚ
  deriving DecidableEq, Repr

def Enemy.box (e : Enemy) : Box := ⟨e.x, e.y, e.w, e.h⟩

/-- Center of an enemy graphic, the point passed to createExplosion on a
kill (game.ts lines 657-659 and 536-538). -/
def Enemy.center (e : Enemy) : ℚ × ℚ := (e.x + e.w / 2, e.y + e.h / 2)

/-- Bullet (game.ts lines 8-13): a 3 x 10 rectangle; dx, dy and
bounceCount are optional fields present exactly on triple-shot bullets,
mirrored by Option fields. -/
structure Bullet where
  x : ℚ
  y : ℚ
  dx : Option ℚ
  dy : Option ℚ
  bounceCount : Option ℕ
  deriving DecidableEq, Repr

def Bullet.box (b : Bullet) : Box := ⟨b.x, b.y, 3, 10⟩

/-- Enemy bomb (game.ts lines 280-289): a circle of radius 3 drawn at the
local origin, so its rendered bounds are (x-3, y-3, 6, 6). -/
structure Bomb where
  x : ℚ
  y : ℚ
  deriving DecidableEq, Repr

def Bomb.box (b : Bomb) : Box := ⟨b.x - 3, b.y - 3, 6, 6⟩

/-- Power-up kinds (game.ts lines 27-31). -/
inductive PowerUpType where
  | laser
  | rapidFire
  | tripleShot
  deriving DecidableEq, Repr

/-- Power-up instance (game.ts lines 34-39). -/
structure PowerUp where
  x : ℚ
  y : ℚ
  powerUpType : PowerUpType
  powerUpActive : Bool
  powerUpTimer : ℚ
  deriving DecidableEq, Repr

/-- Rendered bounds of a power-up by its drawn shape
(game.ts lines 365-383). -/
def PowerUp.box (p : PowerUp) : Box :=
  match p.powerUpType with
  | .laser => ⟨p.x - 3, p.y - 15, 6, 30⟩
  | .rapidFire => ⟨p.x - 10, p.y - 10, 20, 20⟩
  | .tripleShot => ⟨p.x - 10, p.y - 5, 25, 10⟩

/-! ## Game state (the module-level mutable variables, game.ts lines 42-58,
plus bookkeeping for scheduled bomb-hit callbacks and explosion spawns) -/

structure GameState where
  currentLevel : ℕ
  bullets : List Bullet
  lives : ℤ
  gameOver : Bool
  enemySpeed : ℚ
  enemies : List Enemy
  enemyBombs : List Bomb
  powerUps : List PowerUp
  left : Bool
  right : Bool
  space : Bool
  canShoot : Bool
  shootTimer : ℚ
  bombDropTimer : ℕ
  powerUpSpawnTime : ℚ
  activePowerUp : Option PowerUp
  playerX : ℚ
  playerVisible : Bool
  gameOverTextVisible : Bool
  pendingRespawns : ℕ
  explosionLog : List (ℚ × ℚ)
  deriving DecidableEq, Repr

/-- Oracle inputs consumed by one frame: Date.now in milliseconds, the
values of Math.sin 0.2 and Math.cos 0.2 used by the triple-shot spread,
the random power-up type and x position, and the random bomber pick. -/
structure Env where
  now : ℚ
  sin02 : ℚ
  cos02 : ℚ
  rType : PowerUpType
  rx : ℚ
  rBomb : ℕ

/-! ## Enemy grid creation (createEnemies, game.ts lines 217-266) -/

/-- Row-dependent scale, game.ts line 259: 0.8 + row * 0.1. -/
def enemyScale (row : ℕ) : ℚ := 4/5 + (row : ℚ) * (1/10)

/-- One grid enemy, game.ts lines 254-260: x = col*60 + 100,
y = row*40 + 50, direction 1, drawn content 30 x 22 before scaling. -/
def mkEnemy (row col : ℕ) : Enemy :=
  { x := (col : ℚ) * 60 + 100
    y := (row : ℚ) * 40 + 50
    w := 30 * enemyScale row
    h := 22 * enemyScale row
    direction := 1 }

/-- createEnemies, game.ts lines 217-266: 3 rows of 8 enemies. -/
def createEnemies : List Enemy :=
  (List.range ENEMY_ROWS).flatMap (fun row =>
    (List.range ENEMIES_PER_ROW).map (fun col => mkEnemy row col))

/-! ## resetGame and nextLevel (game.ts lines 291-327) -/

/-- resetGame, game.ts lines 291-320. Always clears gameOver, bullets and
bombs, resets the bomb timer, puts the player at screen.width / 2 (= 400)
and shows it, and rebuilds the enemy grid; lives, level and enemy speed
are reset only when isNewGame. -/
def resetGame (s : GameState) (isNewGame : Bool) : GameState :=
  let s := { s with gameOver := false }
  let s :=
    if isNewGame then
      { s with lives := STARTING_LIVES, currentLevel := 1,
               enemySpeed := BASE_ENEMY_SPEED }
    else s
  { s with bombDropTimer := 0
           bullets := []
           enemyBombs := []
           playerX := screenWidth / 2
           playerVisible := true
           gameOverTextVisible := false
           enemies := createEnemies }

/-- nextLevel, game.ts lines 322-327: increment the level, recompute the
enemy speed from the level formula, rebuild the grid. -/
def nextLevel (s : GameState) : GameState :=
  let lvl := s.currentLevel + 1
  { s with currentLevel := lvl
           enemySpeed := BASE_ENEMY_SPEED + ((lvl : ℚ) - 1) * ENEMY_SPEED_INCREASE
           enemies := createEnemies }

/-! ## Key handlers (game.ts lines 333-353) -/

/-- keyup handler for the space key, game.ts lines 349-352. -/
def keyupSpace (s : GameState) : GameState :=
  { s with space := false, canShoot := true }

/-- keydown handler for the r key, game.ts lines 334-337: honored only in
the game-over state, where it performs the explicit new-game reset. -/
def keydownR (s : GameState) : GameState :=
  if s.gameOver then resetGame s true else s

/-! ## Power-ups (game.ts lines 357-481) -/

/-- createPowerUp, game.ts lines 357-392: new instance at the top of the
screen with inactive effect; rx is the random horizontal position. -/
def createPowerUp (t : PowerUpType) (rx : ℚ) : PowerUp :=
  { x := rx, y := -20, powerUpType := t, powerUpActive := false,
    powerUpTimer := 0 }

/-- Removal of the first occurrence of a power-up from the collection,
the indexOf / splice pair of game.ts lines 415-418. -/
def removeFirst (p : PowerUp) : List PowerUp → List PowerUp
  | [] => []
  | q :: rest => if q = p then rest else q :: removeFirst p rest

/-- activatePowerUp, game.ts lines 394-422: set the prior active flag
false (the prior object is thereafter unreferenced, so in this by-value
model overwriting the slot subsumes it), install the new power-up as the
single active one with the fixed 10 s duration, and remove the picked-up
instance from the collection (it is also removed from the stage). -/
def activatePowerUp (s : GameState) (p : PowerUp) : GameState :=
  { s with
    activePowerUp := some { p with powerUpActive := true,
                                   powerUpTimer := POWER_UP_DURATION }
    powerUps := removeFirst p s.powerUps }

/-- Body of the reverse-index move-and-pickup loop of updatePowerUps
(game.ts lines 465-480): rev is the not-yet-processed part of the array in
reverse index order, kept collects survivors in original order. An
instance moves down by 1, is dropped when past the bottom of the screen,
and is activated (and thereby removed from the collection and the stage)
when it overlaps the player. -/
def puGo (s : GameState) : List PowerUp → List PowerUp → GameState
  | [], kept => { s with powerUps := kept }
  | p :: rev, kept =>
    let p := { p with y := p.y + 1 }
    if p.y > screenHeight then puGo s rev kept
    else if checkCollision p.box (playerBox s.playerX) then
      puGo { s with
             activePowerUp := some { p with powerUpActive := true,
                                            powerUpTimer := POWER_UP_DURATION } }
        rev kept
    else puGo s rev (p :: kept)

/-- Spawn paragraph of updatePowerUps (game.ts lines 431-453): only when
no effect is active, no instance is on screen and the spawn interval has
elapsed, append a fresh instance and record the spawn time. -/
def spawnStep (s : GameState) (now : ℚ) (rType : PowerUpType) (rx : ℚ) :
    GameState :=
  if s.activePowerUp.isNone then
    if s.powerUps.length = 0 ∧ now - s.powerUpSpawnTime > POWER_UP_SPAWN_INTERVAL
    then { s with powerUps := s.powerUps ++ [createPowerUp rType rx],
                  powerUpSpawnTime := now }
    else s
  else s

/-- Countdown paragraph of updatePowerUps (game.ts lines 455-462): tick
the active-effect countdown by the fixed per-frame 16.67 (here the
rational 1667/100 standing for the double nearest to 16.67) and expire it
at or below zero. -/
def activeTimerStep (s : GameState) : GameState :=
  match s.activePowerUp with
  | some ap =>
    let ap := { ap with powerUpTimer := ap.powerUpTimer - 1667/100 }
    if ap.powerUpTimer ≤ 0 then { s with activePowerUp := none }
    else { s with activePowerUp := some ap }
  | none => s

/-- updatePowerUps, game.ts lines 427-481: spawn, countdown/expiry, then
move the on-screen instances and handle pickups. -/
def updatePowerUps (s : GameState) (now : ℚ) (rType : PowerUpType)
    (rx : ℚ) : GameState :=
  let s := activeTimerStep (spawnStep s now rType rx)
  puGo s s.powerUps.reverse []

/-! ## Player movement (game.ts lines 602-604) -/

/-- Per-frame player movement: two independent guarded moves by the fixed
speed; the right-move guard reads the position already updated by the
left move, exactly as the two sequential if statements do. -/
def movePlayerStep (s : GameState) : GameState :=
  let s :=
    if s.left ∧ s.playerX > 0 then { s with playerX := s.playerX - PLAYER_SPEED }
    else s
  if s.right ∧ s.playerX < screenWidth - playerWidth then
    { s with playerX := s.playerX + PLAYER_SPEED }
  else s

/-! ## Shooting (game.ts lines 483-593) -/

/-- Laser x coordinate, game.ts line 504: player.x + playerWidth / 2. -/
def laserX (px : ℚ) : ℚ := px + playerWidth / 2

/-- The laser hit test of game.ts lines 533-535: the enemy is inside the
horizontal band of the beam plus glow and is on screen. -/
def laserHits (lx : ℚ) (e : Enemy) : Bool :=
  decide (e.x < lx + (LASER_WIDTH / 2 + 4)) &&
  decide (e.x + e.w > lx - (LASER_WIDTH / 2 + 4)) &&
  decide (e.y + e.h > 0)

/-- Whether the currently active power-up has the given type, the shape of
the activePowerUp?.powerUpType comparisons in shoot. -/
def activeType (s : GameState) (t : PowerUpType) : Bool :=
  match s.activePowerUp with
  | some p => p.powerUpType = t
  | none => false

/-- One triple-shot bullet for a spread angle (game.ts lines 556-570):
dx = sin(angle) * BULLET_SPEED * 1.5, dy = -|cos(angle) * BULLET_SPEED * 1.5|,
spawned just above the player cannon with bounce count 0. sinA and cosA
are the oracle values of Math.sin and Math.cos at the angle. -/
def mkTripleBullet (px sinA cosA : ℚ) : Bullet :=
  { x := px + playerWidth / 2 - 3/2
    y := playerY - 10
    dx := some (sinA * (BULLET_SPEED * (3/2)))
    dy := some (-|cosA * (BULLET_SPEED * (3/2))|)
    bounceCount := some 0 }

/-- A normal (or rapid-fire) bullet, game.ts lines 574-581. -/
def mkBullet (px : ℚ) : Bullet :=
  { x := px + playerWidth / 2 - 3/2, y := playerY - 10,
    dx := none, dy := none, bounceCount := none }

/-- shoot, game.ts lines 483-593. Gates: the canShoot latch always;
under RapidFire additionally the 1/5-baseline cooldown since the last
shot; otherwise the space flag (no time-based cooldown on this path).
On success the shot timestamp is recorded, the pattern fires by active
power-up (laser kills enemies synchronously, spawning one explosion per
kill at the enemy center; triple shot appends three spread bullets;
otherwise one straight bullet), and the latch is cleared unless RapidFire
is active. -/
def shoot (s : GameState) (now sin02 cos02 : ℚ) : GameState :=
  if ¬ s.canShoot then s
  else if activeType s .rapidFire ∧ now - s.shootTimer < BULLET_COOLDOWN / 5 then s
  else if ¬ activeType s .rapidFire ∧ ¬ s.space then s
  else
    let s := { s with shootTimer := now }
    let s :=
      if activeType s .laser then
        let lx := laserX s.playerX
        let killed := s.enemies.filter (fun e => laserHits lx e)
        { s with enemies := s.enemies.filter (fun e => ¬ laserHits lx e)
                 explosionLog := s.explosionLog ++
                   (killed.reverse.map Enemy.center) }
      else if activeType s .tripleShot then
        { s with bullets := s.bullets ++
            [ mkTripleBullet s.playerX (-sin02) cos02,
              mkTripleBullet s.playerX 0 1,
              mkTripleBullet s.playerX sin02 cos02 ] }
      else
        { s with bullets := s.bullets ++ [mkBullet s.playerX] }
    if ¬ activeType s .rapidFire then { s with canShoot := false } else s

/-! ## Bullet update and bullet-enemy collisions (game.ts lines 610-672) -/

/-- Movement, bounce and cull step for a triple-shot bullet
(game.ts lines 614-638): advance by (dx, dy); on touching a side bound
negate dx, clamp x into [0, screenWidth] and increment the bounce count;
discard on touching the top bound (no bounce there), on passing the
bottom bound or once the bounce count exceeds 3. -/
def moveTriple (b : Bullet) (dx dy : ℚ) (bc : ℕ) : Option Bullet :=
  let x := b.x + dx
  let y := b.y + dy
  let sideHit : Bool := decide (x ≤ 0) || decide (x ≥ screenWidth)
  let dx := if sideHit then -dx else dx
  let x := if sideHit then max 0 (min x screenWidth) else x
  let bc := if sideHit then bc + 1 else bc
  if y ≤ 0 then none
  else if y > screenHeight ∨ bc > 3 then none
  else some { x := x, y := y, dx := some dx, dy := some dy,
              bounceCount := some bc }

/-- Movement and cull step for a normal bullet (game.ts lines 641-651):
straight up by BULLET_SPEED, discarded outside the vertical bounds. -/
def moveStraight (b : Bullet) : Option Bullet :=
  let y := b.y - BULLET_SPEED
  if y < 0 ∨ y > screenHeight then none
  else some { b with y := y }

/-- Per-bullet movement dispatch, game.ts line 614: the triple-shot branch
requires dx, dy and bounceCount all present. -/
def moveBullet (b : Bullet) : Option Bullet :=
  match b.dx, b.dy, b.bounceCount with
  | some dx, some dy, some bc => moveTriple b dx dy bc
  | _, _, _ => moveStraight b

/-- Index of the first enemy hit by the scan of game.ts lines 654-671,
which runs j from enemies.length - 1 down to 0: the LARGEST index whose
enemy collides with the bullet box. -/
def hitFromEnd (bb : Box) : List Enemy → Option ℕ
  | [] => none
  | e :: rest =>
    match hitFromEnd bb rest with
    | some j => some (j + 1)
    | none => if checkCollision bb e.box then some 0 else none

/-- Body of the reverse-index bullet loop (game.ts lines 610-672):
rev is the unprocessed part of the bullets array in reverse index order,
kept the survivors in original order. Each bullet moves (possibly being
culled), then scans the enemies from the last index down; the first hit
found removes bullet and enemy and spawns one explosion at the enemy
center, and stops further enemy checks for that bullet. -/
def bulletGo (s : GameState) : List Bullet → List Bullet → GameState
  | [], kept => { s with bullets := kept }
  | b :: rev, kept =>
    match moveBullet b with
    | none => bulletGo s rev kept
    | some b =>
      match hitFromEnd b.box s.enemies with
      | some j =>
        let e := s.enemies.getD j ⟨0, 0, 0, 0, 0⟩
        bulletGo
          { s with enemies := s.enemies.eraseIdx j
                   explosionLog := s.explosionLog ++ [e.center] }
          rev kept
      | none => bulletGo s rev (b :: kept)

/-- The whole per-frame bullet pass. -/
def bulletPhase (s : GameState) : GameState :=
  bulletGo s s.bullets.reverse []

/-! ## Bomb drop (game.ts lines 674-680) -/

/-- Bomb-drop step: the frame counter increments; once it reaches
BOMB_DROP_INTERVAL / (1 + level * 0.2) and an enemy exists, a random
enemy (index rBomb mod the collection size) drops a bomb from the middle
of its bottom edge and the counter resets. -/
def bombDropStep (s : GameState) (rBomb : ℕ) : GameState :=
  let t := s.bombDropTimer + 1
  if (t : ℚ) ≥ BOMB_DROP_INTERVAL / (1 + (s.currentLevel : ℚ) * (1/5)) ∧
      0 < s.enemies.length then
    let bomber := s.enemies.getD (rBomb % s.enemies.length) ⟨0, 0, 0, 0, 0⟩
    { s with bombDropTimer := 0
             enemyBombs := s.enemyBombs ++
               [⟨bomber.x + bomber.w / 2, bomber.y + bomber.h⟩] }
  else { s with bombDropTimer := t }

/-! ## Bomb movement and bomb-player collision (game.ts lines 683-721) -/

/-- Body of the reverse-index bomb loop. rev is the unprocessed part of
the bombs array in reverse index order, kept the survivors in original
order. Each bomb falls by BOMB_SPEED and is dropped when past the bottom;
a bomb overlapping the player spawns one explosion at the player center,
is removed, hides the player, schedules the respawn-or-game-over callback
(pendingRespawns) and RETURNS from the whole frame: the Bool result
records that early return, and the bombs not yet processed (rev, i.e. the
lower indices) are left at their original positions. -/
def bombGo (s : GameState) : List Bomb → List Bomb → GameState × Bool
  | [], kept => ({ s with enemyBombs := kept }, false)
  | b :: rev, kept =>
    let b := { b with y := b.y + BOMB_SPEED }
    if b.y > screenHeight then bombGo s rev kept
    else if checkCollision (playerBox s.playerX) b.box then
      ({ s with
         explosionLog := s.explosionLog ++
           [(s.playerX + playerWidth / 2, playerY + playerHeight / 2)]
         enemyBombs := rev.reverse ++ kept
         playerVisible := false
         pendingRespawns := s.pendingRespawns + 1 }, true)
    else bombGo s rev (b :: kept)

/-- The setTimeout callback scheduled at game.ts lines 705-717, fired
500 ms after a bomb hit: decrement lives, then either enter the terminal
game-over state or perform a non-new-game reset and show the player. -/
def bombTimeout (s : GameState) : GameState :=
  let s := { s with lives := s.lives - 1,
                    pendingRespawns := s.pendingRespawns - 1 }
  if s.lives ≤ 0 then
    { s with gameOver := true, gameOverTextVisible := true }
  else
    let s := resetGame s false
    { s with playerVisible := true }

/-! ## Enemy movement and enemy-player checks (game.ts lines 723-770) -/

/-- Accumulator threaded through the enemies.forEach of game.ts
lines 725-763. The forEach iterates a snapshot of the array; moved
collects the snapshot elements after their in-place horizontal move, and
resetDone records whether some life loss resetGame replaced the live
array (in which case the live array is the fresh grid stored in st and
the moved snapshot objects are dead). -/
structure EnemyPhaseAcc where
  st : GameState
  moved : List Enemy
  resetDone : Bool
  needsFlip : Bool
  deriving DecidableEq, Repr

/-- The shared life-loss body of game.ts lines 733-745 and 750-761:
decrement lives; at zero or below enter the terminal game-over state and
hide the player, otherwise perform a non-new-game reset (which rebuilds
the grid and recenters the player). -/
def lifeLost (a : EnemyPhaseAcc) : EnemyPhaseAcc :=
  let st := { a.st with lives := a.st.lives - 1 }
  if st.lives ≤ 0 then
    { a with st := { st with gameOver := true, playerVisible := false,
                             gameOverTextVisible := true } }
  else
    { a with st := resetGame st false, resetDone := true }

/-- One iteration of the enemies.forEach (game.ts lines 725-763): move
the enemy horizontally by speed * direction, flag a group direction
change when it touches a side bound, then run the bottom-reached check
and, only if that did not fire (the callback returns), the player
collision check; either check deducts one life via the shared body. The
JS return only exits the callback, so the loop continues with the next
snapshot element regardless. -/
def enemyStep (a : EnemyPhaseAcc) (e0 : Enemy) : EnemyPhaseAcc :=
  let e := { e0 with x := e0.x + a.st.enemySpeed * e0.direction }
  let a := { a with
             moved := a.moved ++ [e]
             needsFlip := a.needsFlip ||
               (decide (e.x > screenWidth - e.w) || decide (e.x < 0)) }
  if e.y + e.h > playerY then lifeLost a
  else if checkCollision (playerBox a.st.playerX) e.box then lifeLost a
  else a

/-- The whole enemy pass: fold the forEach body over the snapshot of the
enemy array; afterwards the live array is the fresh grid if some reset
replaced it, else the moved snapshot. Returns the state and the
needsToChangeDirection flag. -/
def enemyPhase (s : GameState) : GameState × Bool :=
  let a := s.enemies.foldl enemyStep
      { st := s, moved := [], resetDone := false, needsFlip := false }
  ({ a.st with enemies := if a.resetDone then a.st.enemies else a.moved },
   a.needsFlip)

/-- Group direction flip and descent, game.ts lines 765-770, applied to
the live array. -/
def flipStep (s : GameState) (needsFlip : Bool) : GameState :=
  if needsFlip then
    { s with enemies := s.enemies.map (fun e =>
        { e with direction := -e.direction, y := e.y + 20 }) }
  else s

/-- Level-advance check, game.ts lines 772-778: when the enemy collection
is empty, clear the remaining bombs and advance the level. -/
def levelClearStep (s : GameState) : GameState :=
  if s.enemies.length = 0 then nextLevel { s with enemyBombs := [] }
  else s

/-! ## The per-frame ticker callback (game.ts lines 596-779) -/

/-- The frame prefix up to and including the bomb drop: power-ups, player
movement, shooting (only while the fire flag is held), bullet update and
bullet-enemy collisions, bomb drop. -/
def preBombs (s : GameState) (env : Env) : GameState :=
  let s := updatePowerUps s env.now env.rType env.rx
  let s := movePlayerStep s
  let s := if s.space then shoot s env.now env.sin02 env.cos02 else s
  let s := bulletPhase s
  bombDropStep s env.rBomb

/-- One run of the app.ticker callback. A set game-over flag suppresses
the whole update; a bomb-player hit returns early, skipping enemy
movement, enemy-player checks, the group flip and the level-advance
check. -/
def tick (s : GameState) (env : Env) : GameState :=
  if s.gameOver then s
  else
    let s := preBombs s env
    match bombGo s s.enemyBombs.reverse [] with
    | (s, true) => s
    | (s, false) =>
      let (s, needsFlip) := enemyPhase s
      let s := flipStep s needsFlip
      levelClearStep s

/-! ## Program start (game.ts lines 42-58, 212, 269, 330) -/

/-- The module-level initial values of the mutable variables, before the
resetGame(true) call at line 330 (player.x is set at line 212 to
screen.width / 2 - playerWidth / 2 = 380; enemies were built once at
line 269). -/
def initialVars : GameState :=
  { currentLevel := 1
    bullets := []
    lives := STARTING_LIVES
    gameOver := false
    enemySpeed := BASE_ENEMY_SPEED
    enemies := createEnemies
    enemyBombs := []
    powerUps := []
    left := false
    right := false
    space := false
    canShoot := true
    shootTimer := 0
    bombDropTimer := 0
    powerUpSpawnTime := 0
    activePowerUp := none
    playerX := screenWidth / 2 - playerWidth / 2
    playerVisible := true
    gameOverTextVisible := false
    pendingRespawns := 0
    explosionLog := [] }

/-- The state when the game loop starts: resetGame(true) has run
(game.ts line 330). -/
def startState : GameState := resetGame initialVars true

/-! ## Derived predicates used by the statements -/

/-- Whether an enemy triggers the bottom-reached check of game.ts
line 732 (its y is not changed by the in-loop horizontal move, so this
can be read off the snapshot element). -/
def yOffends (e : Enemy) : Prop := e.y + e.h > playerY

instance (e : Enemy) : Decidable (yOffends e) := by
  unfold yOffends; infer_instance

/-- Number of snapshot enemies triggering the bottom-reached check. -/
def countYOffend (es : List Enemy) : ℕ :=
  (es.filter (fun e => decide (yOffends e))).length

/-- The lives bookkeeping invariant of the game: lives never exceeds the
starting stock, and lives is nonpositive exactly when the terminal flag
is set. -/
def LivesInv (s : GameState) : Prop :=
  s.lives ≤ STARTING_LIVES ∧ (s.lives ≤ 0 ↔ s.gameOver = true)

/-- The player position invariant: within the horizontal screen bounds
and a multiple of the per-frame speed (every write of player.x is 400,
the initial 380, or a guarded move by exactly 5). -/
def PXInv (s : GameState) : Prop :=
  0 ≤ s.playerX ∧ s.playerX ≤ screenWidth - playerWidth ∧
  ∃ k : ℤ, s.playerX = 5 * k

/-- Every power-up instance in the on-screen collection has an inactive
effect flag (the single active instance lives only in the activePowerUp
slot). -/
def AllInactive (s : GameState) : Prop :=
  ∀ p ∈ s.powerUps, p.powerUpActive = false

instance (s : GameState) : Decidable (AllInactive s) := by
  unfold AllInactive; infer_instance

/-- A power-up as installed in the active slot: flag set, full fixed
duration. -/
def PowerUp.activated (p : PowerUp) : PowerUp :=
  { p with powerUpActive := true, powerUpTimer := POWER_UP_DURATION }

/-- Number of power-up objects tracked by the state whose effect flag is
set. -/
def activeFlagCount (s : GameState) : ℕ :=
  (s.powerUps.filter (fun p => p.powerUpActive)).length +
    (match s.activePowerUp with
     | some p => if p.powerUpActive then 1 else 0
     | none => 0)

/-! ## Concrete scenario states used by counterexamples and witnesses -/

/-- A frame oracle with Date.now = 0, degenerate trig stand-ins and fixed
random draws. -/
def env0 : Env :=
  { now := 0, sin02 := 0, cos02 := 1, rType := .laser, rx := 0, rBomb := 0 }

/-- A row-0-sized enemy sitting so low that its bottom edge passes the
player line (y + h = 560 + 17.6 > 555). -/
def eLow (x : ℚ) : Enemy := { x := x, y := 560, w := 24, h := 88/5, direction := 1 }

/-- A row-0-sized enemy near the top of the screen. -/
def eTop (x : ℚ) : Enemy := { x := x, y := 50, w := 24, h := 88/5, direction := 1 }

/-- Two enemies past the player line with a single life left. -/
def cexC1 : GameState :=
  { startState with lives := 1, enemies := [eLow 100, eLow 200] }

/-- Two enemies past the player line with full lives. -/
def cexC2 : GameState :=
  { startState with enemies := [eLow 100, eLow 200] }

/-- One straight bullet that, after its upward move, overlaps both
enemies of the collection. -/
def cexC3 : GameState :=
  { startState with
      enemies := [eTop 100, eTop 110]
      bullets := [{ x := 112, y := 62, dx := none, dy := none, bounceCount := none }] }

/-- A state about to fire a normal shot 1 ms after the previous shot. -/
def cexC4 : GameState :=
  { startState with space := true, shootTimer := 999 }

/-- A RapidFire instance as held in the active slot. -/
def rapidPU : PowerUp :=
  { x := 0, y := 0, powerUpType := .rapidFire, powerUpActive := true,
    powerUpTimer := 5000 }

/-- RapidFire active, fire held, cooldown long since elapsed, but the
can-fire latch still cleared from an earlier non-rapid shot. -/
def cexC4R : GameState :=
  { startState with
      space := true
      canShoot := false
      shootTimer := 0
      activePowerUp := some rapidPU }

/-- Mid-level state with a single enemy past the player line. -/
def cexC5 : GameState :=
  { startState with enemies := [eLow 100] }

/-- A lone enemy killed by the bullet this frame while a bomb reaches the
player in the same frame. -/
def cexC8 : GameState :=
  { startState with
      enemies := [eTop 100]
      bullets := [{ x := 105, y := 62, dx := none, dy := none, bounceCount := none }]
      enemyBombs := [{ x := 410, y := 550 }] }

/-- A triple-shot bullet about to reach the left bound. -/
def witTriple : Bullet :=
  { x := 3, y := 300, dx := some (-5), dy := some (-4), bounceCount := some 0 }

/-- A descending laser power-up instance overlapping the player. -/
def witPU : PowerUp :=
  { x := 410, y := 560, powerUpType := .laser, powerUpActive := false,
    powerUpTimer := 0 }

/-- State with that instance on screen. -/
def witC6 : GameState := { startState with powerUps := [witPU] }

/-- A bomb about to hit the player. -/
def witC10 : GameState :=
  { startState with enemyBombs := [{ x := 410, y := 550 }] }

/-- The state in which the bomb loop of that frame returns early. -/
def witC10u : GameState :=
  (bombGo (preBombs witC10 env0)
    (preBombs witC10 env0).enemyBombs.reverse []).1

/-- The enemy-pass accumulator at the start of a frame of startState. -/
def acc0 : EnemyPhaseAcc :=
  { st := startState, moved := [], resetDone := false, needsFlip := false }

section RatReducible

attribute [local semireducible] Rat.add Rat.mul Rat.inv Rat.sub Rat.ofScientific

/-! ## Frame lemmas: which fields each phase leaves untouched -/

theorem puGo_frame (rev kept : List PowerUp) (s : GameState) :
    (puGo s rev kept).lives = s.lives ∧
    (puGo s rev kept).gameOver = s.gameOver ∧
    (puGo s rev kept).currentLevel = s.currentLevel ∧
    (puGo s rev kept).enemySpeed = s.enemySpeed ∧
    (puGo s rev kept).enemies = s.enemies ∧
    (puGo s rev kept).enemyBombs = s.enemyBombs ∧
    (puGo s rev kept).bullets = s.bullets ∧
    (puGo s rev kept).playerX = s.playerX ∧
    (puGo s rev kept).playerVisible = s.playerVisible ∧
    (puGo s rev kept).pendingRespawns = s.pendingRespawns := by
  induction rev generalizing s kept with
  | nil => simp [puGo]
  | cons p rest ih =>
    simp only [puGo]
    split
    · exact ih ..
    · split
      · exact ih ..
      · exact ih ..

theorem spawnStep_frame (s : GameState) (now : ℚ) (t : PowerUpType) (rx : ℚ) :
    (spawnStep s now t rx).lives = s.lives ∧
    (spawnStep s now t rx).gameOver = s.gameOver ∧
    (spawnStep s now t rx).currentLevel = s.currentLevel ∧
    (spawnStep s now t rx).enemySpeed = s.enemySpeed ∧
    (spawnStep s now t rx).enemies = s.enemies ∧
    (spawnStep s now t rx).enemyBombs = s.enemyBombs ∧
    (spawnStep s now t rx).bullets = s.bullets ∧
    (spawnStep s now t rx).playerX = s.playerX ∧
    (spawnStep s now t rx).playerVisible = s.playerVisible ∧
    (spawnStep s now t rx).pendingRespawns = s.pendingRespawns := by
  simp only [spawnStep]
  split_ifs <;> simp

theorem activeTimerStep_frame (s : GameState) :
    (activeTimerStep s).lives = s.lives ∧
    (activeTimerStep s).gameOver = s.gameOver ∧
    (activeTimerStep s).currentLevel = s.currentLevel ∧
    (activeTimerStep s).enemySpeed = s.enemySpeed ∧
    (activeTimerStep s).enemies = s.enemies ∧
    (activeTimerStep s).enemyBombs = s.enemyBombs ∧
    (activeTimerStep s).bullets = s.bullets ∧
    (activeTimerStep s).powerUps = s.powerUps ∧
    (activeTimerStep s).playerX = s.playerX ∧
    (activeTimerStep s).playerVisible = s.playerVisible ∧
    (activeTimerStep s).pendingRespawns = s.pendingRespawns := by
  cases h : s.activePowerUp with
  | none => simp [activeTimerStep, h]
  | some ap => simp only [activeTimerStep, h]; split_ifs <;> simp

theorem updatePowerUps_frame (s : GameState) (now : ℚ) (t : PowerUpType) (rx : ℚ) :
    (updatePowerUps s now t rx).lives = s.lives ∧
    (updatePowerUps s now t rx).gameOver = s.gameOver ∧
    (updatePowerUps s now t rx).currentLevel = s.currentLevel ∧
    (updatePowerUps s now t rx).enemySpeed = s.enemySpeed ∧
    (updatePowerUps s now t rx).enemies = s.enemies ∧
    (updatePowerUps s now t rx).enemyBombs = s.enemyBombs ∧
    (updatePowerUps s now t rx).bullets = s.bullets ∧
    (updatePowerUps s now t rx).playerX = s.playerX ∧
    (updatePowerUps s now t rx).playerVisible = s.playerVisible ∧
    (updatePowerUps s now t rx).pendingRespawns = s.pendingRespawns := by
  have h1 := spawnStep_frame s now t rx
  have h2 := activeTimerStep_frame (spawnStep s now t rx)
  have h3 := puGo_frame (activeTimerStep (spawnStep s now t rx)).powerUps.reverse []
      (activeTimerStep (spawnStep s now t rx))
  simp only [updatePowerUps]
  simp_all


theorem movePlayerStep_frame (s : GameState) :
    (movePlayerStep s).lives = s.lives ∧
    (movePlayerStep s).gameOver = s.gameOver ∧
    (movePlayerStep s).currentLevel = s.currentLevel ∧
    (movePlayerStep s).enemySpeed = s.enemySpeed ∧
    (movePlayerStep s).enemies = s.enemies ∧
    (movePlayerStep s).enemyBombs = s.enemyBombs ∧
    (movePlayerStep s).bullets = s.bullets ∧
    (movePlayerStep s).powerUps = s.powerUps ∧
    (movePlayerStep s).playerVisible = s.playerVisible ∧
    (movePlayerStep s).pendingRespawns = s.pendingRespawns := by
  simp only [movePlayerStep]
  split_ifs <;> simp

theorem shoot_frame (s : GameState) (now sin02 cos02 : ℚ) :
    (shoot s now sin02 cos02).lives = s.lives ∧
    (shoot s now sin02 cos02).gameOver = s.gameOver ∧
    (shoot s now sin02 cos02).currentLevel = s.currentLevel ∧
    (shoot s now sin02 cos02).enemySpeed = s.enemySpeed ∧
    (shoot s now sin02 cos02).enemyBombs = s.enemyBombs ∧
    (shoot s now sin02 cos02).powerUps = s.powerUps ∧
    (shoot s now sin02 cos02).playerX = s.playerX ∧
    (shoot s now sin02 cos02).playerVisible = s.playerVisible ∧
    (shoot s now sin02 cos02).pendingRespawns = s.pendingRespawns ∧
    (shoot s now sin02 cos02).enemies.length ≤ s.enemies.length := by
  simp only [shoot]
  split_ifs <;> simp [List.length_filter_le]

theorem eraseIdx_length_le (l : List Enemy) (j : ℕ) :
    (l.eraseIdx j).length ≤ l.length := by
  induction l generalizing j with
  | nil => simp [List.eraseIdx]
  | cons e rest ih =>
    cases j with
    | zero => simp [List.eraseIdx]
    | succ j => simpa [List.eraseIdx] using Nat.succ_le_succ (ih j)

theorem bulletGo_frame (rev kept : List Bullet) (s : GameState) :
    (bulletGo s rev kept).lives = s.lives ∧
    (bulletGo s rev kept).gameOver = s.gameOver ∧
    (bulletGo s rev kept).currentLevel = s.currentLevel ∧
    (bulletGo s rev kept).enemySpeed = s.enemySpeed ∧
    (bulletGo s rev kept).enemyBombs = s.enemyBombs ∧
    (bulletGo s rev kept).powerUps = s.powerUps ∧
    (bulletGo s rev kept).playerX = s.playerX ∧
    (bulletGo s rev kept).playerVisible = s.playerVisible ∧
    (bulletGo s rev kept).pendingRespawns = s.pendingRespawns ∧
    (bulletGo s rev kept).enemies.length ≤ s.enemies.length := by
  induction rev generalizing s kept with
  | nil => simp [bulletGo]
  | cons b rest ih =>
    simp only [bulletGo]
    cases moveBullet b with
    | none => exact ih ..
    | some b1 =>
      dsimp only
      cases hitFromEnd b1.box s.enemies with
      | none => exact ih ..
      | some j =>
        dsimp only
        refine ⟨(ih ..).1, (ih ..).2.1, (ih ..).2.2.1, (ih ..).2.2.2.1,
          (ih ..).2.2.2.2.1, (ih ..).2.2.2.2.2.1, (ih ..).2.2.2.2.2.2.1,
          (ih ..).2.2.2.2.2.2.2.1, (ih ..).2.2.2.2.2.2.2.2.1,
          le_trans (ih ..).2.2.2.2.2.2.2.2.2 ?_⟩
        exact eraseIdx_length_le ..

theorem bulletPhase_frame (s : GameState) :
    (bulletPhase s).lives = s.lives ∧
    (bulletPhase s).gameOver = s.gameOver ∧
    (bulletPhase s).currentLevel = s.currentLevel ∧
    (bulletPhase s).enemySpeed = s.enemySpeed ∧
    (bulletPhase s).enemyBombs = s.enemyBombs ∧
    (bulletPhase s).powerUps = s.powerUps ∧
    (bulletPhase s).playerX = s.playerX ∧
    (bulletPhase s).playerVisible = s.playerVisible ∧
    (bulletPhase s).pendingRespawns = s.pendingRespawns ∧
    (bulletPhase s).enemies.length ≤ s.enemies.length :=
  bulletGo_frame s.bullets.reverse [] s

theorem bombDropStep_frame (s : GameState) (r : ℕ) :
    (bombDropStep s r).lives = s.lives ∧
    (bombDropStep s r).gameOver = s.gameOver ∧
    (bombDropStep s r).currentLevel = s.currentLevel ∧
    (bombDropStep s r).enemySpeed = s.enemySpeed ∧
    (bombDropStep s r).enemies = s.enemies ∧
    (bombDropStep s r).bullets = s.bullets ∧
    (bombDropStep s r).powerUps = s.powerUps ∧
    (bombDropStep s r).playerX = s.playerX ∧
    (bombDropStep s r).playerVisible = s.playerVisible ∧
    (bombDropStep s r).pendingRespawns = s.pendingRespawns := by
  simp only [bombDropStep]
  split_ifs <;> simp

/-- Fields bombGo leaves untouched in both outcomes. -/
theorem bombGo_frame (rev kept : List Bomb) (s : GameState) :
    (bombGo s rev kept).1.lives = s.lives ∧
    (bombGo s rev kept).1.gameOver = s.gameOver ∧
    (bombGo s rev kept).1.currentLevel = s.currentLevel ∧
    (bombGo s rev kept).1.enemySpeed = s.enemySpeed ∧
    (bombGo s rev kept).1.enemies = s.enemies ∧
    (bombGo s rev kept).1.bullets = s.bullets ∧
    (bombGo s rev kept).1.powerUps = s.powerUps ∧
    (bombGo s rev kept).1.playerX = s.playerX := by
  induction rev generalizing s kept with
  | nil => simp [bombGo]
  | cons b rest ih =>
    simp only [bombGo]
    split_ifs <;> first | exact ih .. | simp

/-- When bombGo does not return early, the player-facing fields are also
untouched. -/
theorem bombGo_no_hit (rev kept : List Bomb) (s : GameState)
    (h : (bombGo s rev kept).2 = false) :
    (bombGo s rev kept).1.playerVisible = s.playerVisible ∧
    (bombGo s rev kept).1.pendingRespawns = s.pendingRespawns ∧
    (bombGo s rev kept).1.explosionLog = s.explosionLog := by
  induction rev generalizing s kept with
  | nil => simp [bombGo]
  | cons b rest ih =>
    simp only [bombGo] at h ⊢
    split_ifs at h ⊢ <;> exact ih _ _ h

/-- When bombGo returns early (a bomb hit the player): at most that one
bomb is consumed, the explosion at the player center is logged, the player
is hidden and one respawn callback is scheduled; enemies, lives, level and
bullets are untouched, and the not-yet-processed bombs (the tail of rev,
which are the low-index entries of the original array) survive at their
original, unmoved positions. -/
theorem bombGo_hit (rev kept : List Bomb) (s : GameState) (u : GameState)
    (h : bombGo s rev kept = (u, true)) :
    u.lives = s.lives ∧
    u.gameOver = s.gameOver ∧
    u.currentLevel = s.currentLevel ∧
    u.enemies = s.enemies ∧
    u.bullets = s.bullets ∧
    u.playerVisible = false ∧
    u.pendingRespawns = s.pendingRespawns + 1 ∧
    u.explosionLog = s.explosionLog ++
      [(s.playerX + playerWidth / 2, playerY + playerHeight / 2)] ∧
    ∃ l1 b l2 kept2, rev = l1 ++ b :: l2 ∧
      checkCollision (playerBox s.playerX) (Bomb.box { b with y := b.y + BOMB_SPEED }) = true ∧
      u.enemyBombs = l2.reverse ++ kept2 := by
  induction rev generalizing s kept with
  | nil => simp [bombGo] at h
  | cons b rest ih =>
    simp only [bombGo] at h
    split_ifs at h with h1 h2
    · obtain ⟨a1, a2, a3, a4, a5, a6, a7, a8, l1, bb, l2, kept2, hrev, hc, hbombs⟩ :=
        ih _ _ h
      exact ⟨a1, a2, a3, a4, a5, a6, a7, a8, b :: l1, bb, l2, kept2,
        by rw [hrev]; rfl, hc, hbombs⟩
    · obtain ⟨hu, _⟩ := Prod.mk.injEq .. ▸ h
      subst hu
      exact ⟨rfl, rfl, rfl, rfl, rfl, rfl, rfl, rfl, [], b, rest, kept,
        rfl, by simpa using h2, rfl⟩
    · obtain ⟨a1, a2, a3, a4, a5, a6, a7, a8, l1, bb, l2, kept2, hrev, hc, hbombs⟩ :=
        ih _ _ h
      exact ⟨a1, a2, a3, a4, a5, a6, a7, a8, b :: l1, bb, l2, kept2,
        by rw [hrev]; rfl, hc, hbombs⟩

theorem flipStep_frame (s : GameState) (f : Bool) :
    (flipStep s f).lives = s.lives ∧
    (flipStep s f).gameOver = s.gameOver ∧
    (flipStep s f).currentLevel = s.currentLevel ∧
    (flipStep s f).enemySpeed = s.enemySpeed ∧
    (flipStep s f).enemies.length = s.enemies.length ∧
    (flipStep s f).enemyBombs = s.enemyBombs ∧
    (flipStep s f).bullets = s.bullets ∧
    (flipStep s f).powerUps = s.powerUps ∧
    (flipStep s f).playerX = s.playerX ∧
    (flipStep s f).playerVisible = s.playerVisible ∧
    (flipStep s f).pendingRespawns = s.pendingRespawns := by
  simp only [flipStep]
  split_ifs <;> simp

theorem levelClearStep_frame (s : GameState) :
    (levelClearStep s).lives = s.lives ∧
    (levelClearStep s).gameOver = s.gameOver ∧
    (levelClearStep s).bullets = s.bullets ∧
    (levelClearStep s).powerUps = s.powerUps ∧
    (levelClearStep s).playerX = s.playerX ∧
    (levelClearStep s).playerVisible = s.playerVisible ∧
    (levelClearStep s).pendingRespawns = s.pendingRespawns := by
  simp only [levelClearStep, nextLevel]
  split_ifs <;> simp

/-! ## Lemmas about the enemy pass -/

theorem lifeLost_lives (a : EnemyPhaseAcc) :
    (lifeLost a).st.lives = a.st.lives - 1 := by
  simp only [lifeLost, resetGame]
  split_ifs <;> simp_all

/-- Each forEach iteration either leaves the whole game state (and the
reset flag) untouched, or deducts exactly one life. -/
theorem enemyStep_cases (a : EnemyPhaseAcc) (e : Enemy) :
    ((enemyStep a e).st = a.st ∧ (enemyStep a e).resetDone = a.resetDone) ∨
    (enemyStep a e).st.lives = a.st.lives - 1 := by
  simp only [enemyStep]
  split_ifs
  · exact Or.inr (lifeLost_lives _)
  · exact Or.inr (lifeLost_lives _)
  · exact Or.inl ⟨rfl, rfl⟩

theorem enemyStep_lives_le (a : EnemyPhaseAcc) (e : Enemy) :
    (enemyStep a e).st.lives ≤ a.st.lives := by
  rcases enemyStep_cases a e with ⟨h, _⟩ | h
  · rw [h]
  · rw [h]; omega

/-- A bottom-reaching enemy deducts exactly one life in its iteration
(the JS return skips the collision check for that enemy, so the life is
not deducted twice). -/
theorem enemyStep_yOffend (a : EnemyPhaseAcc) (e : Enemy) (h : yOffends e) :
    (enemyStep a e).st.lives = a.st.lives - 1 := by
  have hy : ({ e with x := e.x + a.st.enemySpeed * e.direction } : Enemy).y +
      ({ e with x := e.x + a.st.enemySpeed * e.direction } : Enemy).h > playerY := h
  simp only [enemyStep, if_pos hy]
  exact lifeLost_lives _

/-- A non-offending, non-colliding enemy leaves the game state alone. -/
theorem enemyStep_quiet (a : EnemyPhaseAcc) (e : Enemy)
    (h1 : ¬ yOffends e)
    (h2 : checkCollision (playerBox a.st.playerX)
        (Enemy.box { e with x := e.x + a.st.enemySpeed * e.direction }) = false) :
    (enemyStep a e).st = a.st ∧ (enemyStep a e).resetDone = a.resetDone := by
  simp only [enemyStep]
  rw [if_neg (show ¬ (e.y + e.h > playerY) from h1)]
  rw [if_neg (by simp [h2])]
  exact ⟨rfl, rfl⟩

theorem foldl_enemyStep_lives_le (es : List Enemy) (a : EnemyPhaseAcc) :
    (es.foldl enemyStep a).st.lives ≤ a.st.lives := by
  induction es generalizing a with
  | nil => simp
  | cons e rest ih =>
    calc (List.foldl enemyStep (enemyStep a e) rest).st.lives
        ≤ (enemyStep a e).st.lives := ih _
      _ ≤ a.st.lives := enemyStep_lives_le a e

/-- No short-circuit: every bottom-reaching snapshot enemy deducts a
life, so the fold loses at least countYOffend lives. -/
theorem foldl_enemyStep_count (es : List Enemy) (a : EnemyPhaseAcc) :
    (es.foldl enemyStep a).st.lives ≤ a.st.lives - countYOffend es := by
  induction es generalizing a with
  | nil => simp [countYOffend]
  | cons e rest ih =>
    by_cases h : yOffends e
    · have h1 : (enemyStep a e).st.lives = a.st.lives - 1 := enemyStep_yOffend a e h
      have h2 := ih (enemyStep a e)
      have hc : countYOffend (e :: rest) = countYOffend rest + 1 := by
        simp [countYOffend, h]
      simp only [List.foldl_cons]
      omega
    · have h1 := enemyStep_lives_le a e
      have h2 := ih (enemyStep a e)
      have hc : countYOffend (e :: rest) = countYOffend rest := by
        simp [countYOffend, h]
      simp only [List.foldl_cons]
      omega


theorem lifeLost_frame (a : EnemyPhaseAcc) :
    (lifeLost a).st.currentLevel = a.st.currentLevel ∧
    (lifeLost a).st.enemySpeed = a.st.enemySpeed ∧
    (lifeLost a).st.powerUps = a.st.powerUps ∧
    (lifeLost a).st.pendingRespawns = a.st.pendingRespawns ∧
    (lifeLost a).moved = a.moved ∧
    (lifeLost a).needsFlip = a.needsFlip := by
  simp only [lifeLost, resetGame]
  split_ifs <;> simp_all

theorem enemyStep_frame (a : EnemyPhaseAcc) (e : Enemy) :
    (enemyStep a e).st.currentLevel = a.st.currentLevel ∧
    (enemyStep a e).st.enemySpeed = a.st.enemySpeed ∧
    (enemyStep a e).st.powerUps = a.st.powerUps ∧
    (enemyStep a e).st.pendingRespawns = a.st.pendingRespawns := by
  simp only [enemyStep]
  split_ifs
  · exact ⟨(lifeLost_frame _).1, (lifeLost_frame _).2.1, (lifeLost_frame _).2.2.1,
      (lifeLost_frame _).2.2.2.1⟩
  · exact ⟨(lifeLost_frame _).1, (lifeLost_frame _).2.1, (lifeLost_frame _).2.2.1,
      (lifeLost_frame _).2.2.2.1⟩
  · exact ⟨rfl, rfl, rfl, rfl⟩

theorem foldl_enemyStep_frame (es : List Enemy) (a : EnemyPhaseAcc) :
    (es.foldl enemyStep a).st.currentLevel = a.st.currentLevel ∧
    (es.foldl enemyStep a).st.enemySpeed = a.st.enemySpeed ∧
    (es.foldl enemyStep a).st.powerUps = a.st.powerUps ∧
    (es.foldl enemyStep a).st.pendingRespawns = a.st.pendingRespawns := by
  induction es generalizing a with
  | nil => simp
  | cons e rest ih =>
    simp only [List.foldl_cons]
    obtain ⟨i1, i2, i3, i4⟩ := ih (enemyStep a e)
    obtain ⟨s1, s2, s3, s4⟩ := enemyStep_frame a e
    exact ⟨i1.trans s1, i2.trans s2, i3.trans s3, i4.trans s4⟩

theorem lifeLost_livesInv (a : EnemyPhaseAcc) (h : LivesInv a.st) :
    LivesInv (lifeLost a).st := by
  obtain ⟨h1, h2⟩ := h
  unfold LivesInv at *
  simp only [lifeLost, resetGame, STARTING_LIVES] at *
  split_ifs <;> refine ⟨?_, ?_⟩ <;> simp_all <;> omega

theorem enemyStep_livesInv (a : EnemyPhaseAcc) (e : Enemy) (h : LivesInv a.st) :
    LivesInv (enemyStep a e).st := by
  simp only [enemyStep]
  split_ifs
  · exact lifeLost_livesInv _ h
  · exact lifeLost_livesInv _ h
  · exact h

theorem foldl_enemyStep_livesInv (es : List Enemy) (a : EnemyPhaseAcc)
    (h : LivesInv a.st) : LivesInv (es.foldl enemyStep a).st := by
  induction es generalizing a with
  | nil => simpa
  | cons e rest ih => exact ih (enemyStep a e) (enemyStep_livesInv a e h)

theorem foldl_enemyStep_playerX (es : List Enemy) (a : EnemyPhaseAcc) :
    (es.foldl enemyStep a).st.playerX = a.st.playerX ∨
    (es.foldl enemyStep a).st.playerX = screenWidth / 2 := by
  induction es generalizing a with
  | nil => simp
  | cons e rest ih =>
    simp only [List.foldl_cons]
    have hstep : (enemyStep a e).st.playerX = a.st.playerX ∨
        (enemyStep a e).st.playerX = screenWidth / 2 := by
      simp only [enemyStep]
      split_ifs
      · simp only [lifeLost, resetGame]
        split_ifs <;> simp
      · simp only [lifeLost, resetGame]
        split_ifs <;> simp
      · exact Or.inl rfl
    rcases ih (enemyStep a e) with hr | hr
    · rcases hstep with hs | hs
      · exact Or.inl (hr.trans hs)
      · exact Or.inr (hr.trans hs)
    · exact Or.inr hr

/-- If the fold did not change lives, no check fired: the game state and
the reset flag are exactly as before the fold. -/
theorem foldl_enemyStep_st_eq (es : List Enemy) (a : EnemyPhaseAcc)
    (h : (es.foldl enemyStep a).st.lives = a.st.lives) :
    (es.foldl enemyStep a).st = a.st ∧
    (es.foldl enemyStep a).resetDone = a.resetDone := by
  induction es generalizing a with
  | nil => exact ⟨rfl, rfl⟩
  | cons e rest ih =>
    simp only [List.foldl_cons] at h ⊢
    have h1 := foldl_enemyStep_lives_le rest (enemyStep a e)
    rcases enemyStep_cases a e with ⟨hs, hr⟩ | hs
    · have h2 : (rest.foldl enemyStep (enemyStep a e)).st.lives =
          (enemyStep a e).st.lives := by rw [hs, h]
      obtain ⟨g1, g2⟩ := ih (enemyStep a e) h2
      exact ⟨g1.trans hs, g2.trans hr⟩
    · exact absurd h (by omega)

theorem enemyStep_moved_length (a : EnemyPhaseAcc) (e : Enemy) :
    (enemyStep a e).moved.length = a.moved.length + 1 := by
  simp only [enemyStep]
  split_ifs
  · rw [(lifeLost_frame _).2.2.2.2.1]
    simp
  · rw [(lifeLost_frame _).2.2.2.2.1]
    simp
  · simp

theorem foldl_enemyStep_moved_length (es : List Enemy) (a : EnemyPhaseAcc) :
    (es.foldl enemyStep a).moved.length = a.moved.length + es.length := by
  induction es generalizing a with
  | nil => simp
  | cons e rest ih =>
    simp only [List.foldl_cons, ih (enemyStep a e), enemyStep_moved_length,
      List.length_cons]
    omega

theorem livesInv_of_eq (s t : GameState) (h1 : t.lives = s.lives)
    (h2 : t.gameOver = s.gameOver) (h : LivesInv s) : LivesInv t := by
  unfold LivesInv at *
  rw [h1, h2]
  exact h

/-! ## enemyPhase wrappers -/

theorem enemyPhase_livesInv (s : GameState) (h : LivesInv s) :
    LivesInv (enemyPhase s).1 := by
  have := foldl_enemyStep_livesInv s.enemies
      { st := s, moved := [], resetDone := false, needsFlip := false } h
  simp only [enemyPhase]
  exact livesInv_of_eq _ _ rfl rfl this

theorem enemyPhase_frame (s : GameState) :
    (enemyPhase s).1.currentLevel = s.currentLevel ∧
    (enemyPhase s).1.powerUps = s.powerUps ∧
    (enemyPhase s).1.pendingRespawns = s.pendingRespawns := by
  have := foldl_enemyStep_frame s.enemies
      { st := s, moved := [], resetDone := false, needsFlip := false }
  simp only [enemyPhase]
  exact ⟨this.1, this.2.2.1, this.2.2.2⟩

theorem enemyPhase_lives_le (s : GameState) :
    (enemyPhase s).1.lives ≤ s.lives := by
  have := foldl_enemyStep_lives_le s.enemies
      { st := s, moved := [], resetDone := false, needsFlip := false }
  simpa [enemyPhase] using this

theorem enemyPhase_count (s : GameState) :
    (enemyPhase s).1.lives ≤ s.lives - countYOffend s.enemies := by
  have := foldl_enemyStep_count s.enemies
      { st := s, moved := [], resetDone := false, needsFlip := false }
  simpa [enemyPhase] using this

theorem enemyPhase_playerX (s : GameState) :
    (enemyPhase s).1.playerX = s.playerX ∨
    (enemyPhase s).1.playerX = screenWidth / 2 := by
  have := foldl_enemyStep_playerX s.enemies
      { st := s, moved := [], resetDone := false, needsFlip := false }
  simpa [enemyPhase] using this

/-- A life-neutral enemy pass only moves the enemies: the state is
unchanged except for the enemy array, whose size is preserved. -/
theorem enemyPhase_of_lives_eq (s : GameState)
    (h : (enemyPhase s).1.lives = s.lives) :
    ∃ l : List Enemy, (enemyPhase s).1 = { s with enemies := l } ∧
      l.length = s.enemies.length := by
  have hst := foldl_enemyStep_st_eq s.enemies
      { st := s, moved := [], resetDone := false, needsFlip := false }
      (by simpa [enemyPhase] using h)
  have hlen := foldl_enemyStep_moved_length s.enemies
      { st := s, moved := [], resetDone := false, needsFlip := false }
  refine ⟨(s.enemies.foldl enemyStep
      { st := s, moved := [], resetDone := false, needsFlip := false }).moved,
      ?_, by simpa using hlen⟩
  simp only [enemyPhase, hst.2]
  rw [hst.1]
  simp

/-! ## Frame lemmas for the prefix of the frame and for tick -/

theorem preBombs_frame (s : GameState) (env : Env) :
    (preBombs s env).lives = s.lives ∧
    (preBombs s env).gameOver = s.gameOver ∧
    (preBombs s env).currentLevel = s.currentLevel ∧
    (preBombs s env).enemySpeed = s.enemySpeed ∧
    (preBombs s env).playerVisible = s.playerVisible ∧
    (preBombs s env).pendingRespawns = s.pendingRespawns ∧
    (preBombs s env).enemies.length ≤ s.enemies.length := by
  simp only [preBombs]
  obtain ⟨u1, u2, u3, u4, u5, _, _, _, u9, u10⟩ :=
    updatePowerUps_frame s env.now env.rType env.rx
  set s1 := updatePowerUps s env.now env.rType env.rx
  obtain ⟨m1, m2, m3, m4, m5, _, _, _, m9, m10⟩ := movePlayerStep_frame s1
  set s2 := movePlayerStep s1
  set s3 := if s2.space then shoot s2 env.now env.sin02 env.cos02 else s2
  have hshoot : s3.lives = s2.lives ∧ s3.gameOver = s2.gameOver ∧
      s3.currentLevel = s2.currentLevel ∧ s3.enemySpeed = s2.enemySpeed ∧
      s3.playerVisible = s2.playerVisible ∧
      s3.pendingRespawns = s2.pendingRespawns ∧
      s3.enemies.length ≤ s2.enemies.length := by
    simp only [s3]
    split_ifs
    · obtain ⟨a1, a2, a3, a4, _, _, _, a8, a9, a10⟩ :=
        shoot_frame s2 env.now env.sin02 env.cos02
      exact ⟨a1, a2, a3, a4, a8, a9, a10⟩
    · exact ⟨rfl, rfl, rfl, rfl, rfl, rfl, le_refl _⟩
  obtain ⟨b1, b2, b3, b4, _, _, _, b8, b9, b10⟩ := bulletPhase_frame s3
  set s4 := bulletPhase s3
  obtain ⟨d1, d2, d3, d4, d5, _, _, _, d9, d10⟩ := bombDropStep_frame s4 env.rBomb
  refine ⟨?_, ?_, ?_, ?_, ?_, ?_, ?_⟩
  · rw [d1, b1, hshoot.1, m1, u1]
  · rw [d2, b2, hshoot.2.1, m2, u2]
  · rw [d3, b3, hshoot.2.2.1, m3, u3]
  · rw [d4, b4, hshoot.2.2.2.1, m4, u4]
  · rw [d9, b8, hshoot.2.2.2.2.1, m9, u9]
  · rw [d10, b9, hshoot.2.2.2.2.2.1, m10, u10]
  · calc (bombDropStep s4 env.rBomb).enemies.length
        = s4.enemies.length := by rw [d5]
      _ ≤ s3.enemies.length := b10
      _ ≤ s2.enemies.length := hshoot.2.2.2.2.2.2
      _ = s1.enemies.length := by rw [m5]
      _ = s.enemies.length := by rw [u5]

/-- A set game-over flag suppresses the whole per-frame update. -/
theorem tick_of_gameOver (s : GameState) (env : Env)
    (h : s.gameOver = true) : tick s env = s := by
  simp [tick, h]

theorem tick_of_bombHit (s : GameState) (env : Env) (u : GameState)
    (hg : s.gameOver = false)
    (h : bombGo (preBombs s env) (preBombs s env).enemyBombs.reverse [] =
      (u, true)) : tick s env = u := by
  simp only [tick, hg, Bool.false_eq_true, if_false]
  rw [h]

theorem tick_of_noBombHit (s : GameState) (env : Env) (u : GameState)
    (hg : s.gameOver = false)
    (h : bombGo (preBombs s env) (preBombs s env).enemyBombs.reverse [] =
      (u, false)) :
    tick s env =
      levelClearStep (flipStep (enemyPhase u).1 (enemyPhase u).2) := by
  simp only [tick, hg, Bool.false_eq_true, if_false]
  rw [h]

/-- One frame preserves the lives bookkeeping invariant. -/
theorem tick_livesInv (s : GameState) (env : Env) (h : LivesInv s) :
    LivesInv (tick s env) := by
  by_cases hg : s.gameOver = true
  · rw [tick_of_gameOver s env hg]; exact h
  · replace hg : s.gameOver = false := by simpa using hg
    have hp := preBombs_frame s env
    rcases hb : bombGo (preBombs s env) (preBombs s env).enemyBombs.reverse []
      with ⟨u, flag⟩
    have hbf := bombGo_frame (preBombs s env).enemyBombs.reverse
      ([] : List Bomb) (preBombs s env)
    rw [hb] at hbf
    cases flag with
    | true =>
      rw [tick_of_bombHit s env u hg hb]
      obtain ⟨c1, c2, _⟩ := bombGo_hit _ _ _ _ hb
      exact livesInv_of_eq s u (c1.trans hp.1) (c2.trans hp.2.1) h
    | false =>
      rw [tick_of_noBombHit s env u hg hb]
      have hu : LivesInv u :=
        livesInv_of_eq s u (hbf.1.trans hp.1) (hbf.2.1.trans hp.2.1) h
      have hv := enemyPhase_livesInv u hu
      have hf := flipStep_frame (enemyPhase u).1 (enemyPhase u).2
      have hl := levelClearStep_frame (flipStep (enemyPhase u).1 (enemyPhase u).2)
      exact livesInv_of_eq _ _ (hl.1.trans hf.1) (hl.2.1.trans hf.2.1) hv

/-- The deferred bomb-hit callback preserves the invariant. -/
theorem bombTimeout_livesInv (s : GameState) (h : LivesInv s) :
    LivesInv (bombTimeout s) := by
  obtain ⟨h1, h2⟩ := h
  unfold LivesInv at *
  simp only [bombTimeout, resetGame, STARTING_LIVES] at *
  split_ifs <;> refine ⟨?_, ?_⟩ <;> simp_all <;> omega

/-- In the terminal state the deferred bomb-hit callback keeps the
terminal flag set (lives are already nonpositive, so its decrement keeps
them nonpositive and it takes the game-over branch again). -/
theorem bombTimeout_gameOver (s : GameState) (h : LivesInv s)
    (hg : s.gameOver = true) : (bombTimeout s).gameOver = true := by
  have hl : s.lives ≤ 0 := h.2.mpr hg
  simp only [bombTimeout]
  rw [if_pos (by simp; omega)]

/-- The explicit new-game reset restores the invariant with full lives
and a cleared terminal flag. -/
theorem resetGame_new_livesInv (s : GameState) :
    LivesInv (resetGame s true) ∧ (resetGame s true).lives = STARTING_LIVES ∧
    (resetGame s true).gameOver = false := by
  unfold LivesInv
  simp [resetGame, STARTING_LIVES]

/-- The restart key is honored only in the terminal state, where it runs
the explicit new-game reset. -/
theorem keydownR_livesInv (s : GameState) (h : LivesInv s) :
    LivesInv (keydownR s) := by
  unfold keydownR
  split_ifs
  · exact (resetGame_new_livesInv s).1
  · exact h

theorem createEnemies_length : createEnemies.length = 24 := by
  decide

theorem levelClearStep_cases (s : GameState) :
    (s.enemies.length = 0 ∧
      levelClearStep s = nextLevel { s with enemyBombs := [] }) ∨
    (s.enemies.length ≠ 0 ∧ levelClearStep s = s) := by
  by_cases h : s.enemies.length = 0
  · exact Or.inl ⟨h, by simp [levelClearStep, h]⟩
  · exact Or.inr ⟨h, by simp [levelClearStep, h]⟩

theorem nextLevel_spec (s : GameState) :
    (nextLevel s).currentLevel = s.currentLevel + 1 ∧
    (nextLevel s).enemySpeed =
      BASE_ENEMY_SPEED + (((s.currentLevel + 1 : ℕ) : ℚ) - 1) * ENEMY_SPEED_INCREASE ∧
    (nextLevel s).enemies = createEnemies ∧
    (nextLevel s).enemyBombs = s.enemyBombs ∧
    (nextLevel s).lives = s.lives ∧
    (nextLevel s).gameOver = s.gameOver := by
  simp [nextLevel]

/-- In a frame that loses no life and advances no level, the enemy
collection cannot grow. -/
theorem tick_enemies_length (s : GameState) (env : Env)
    (hlive : (tick s env).lives = s.lives)
    (hlvl : (tick s env).currentLevel = s.currentLevel) :
    (tick s env).enemies.length ≤ s.enemies.length := by
  by_cases hg : s.gameOver = true
  · rw [tick_of_gameOver s env hg]
  · replace hg : s.gameOver = false := by simpa using hg
    have hp := preBombs_frame s env
    rcases hb : bombGo (preBombs s env) (preBombs s env).enemyBombs.reverse []
      with ⟨u, flag⟩
    have hbf := bombGo_frame (preBombs s env).enemyBombs.reverse
      ([] : List Bomb) (preBombs s env)
    rw [hb] at hbf
    cases flag with
    | true =>
      rw [tick_of_bombHit s env u hg hb] at *
      obtain ⟨_, _, _, c4, _⟩ := bombGo_hit _ _ _ _ hb
      rw [c4]
      exact hp.2.2.2.2.2.2
    | false =>
      rw [tick_of_noBombHit s env u hg hb] at *
      have hul : u.lives = s.lives := hbf.1.trans hp.1
      have hulvl : u.currentLevel = s.currentLevel := hbf.2.2.1.trans hp.2.2.1
      have hue : u.enemies.length ≤ s.enemies.length := by
        rw [hbf.2.2.2.2.1]; exact hp.2.2.2.2.2.2
      have hf := flipStep_frame (enemyPhase u).1 (enemyPhase u).2
      have hl := levelClearStep_frame (flipStep (enemyPhase u).1 (enemyPhase u).2)
      have hvl : (enemyPhase u).1.lives = u.lives := by
        have h1 : (levelClearStep (flipStep (enemyPhase u).1 (enemyPhase u).2)).lives
            = (enemyPhase u).1.lives := hl.1.trans hf.1
        rw [h1] at hlive
        rw [hlive, hul]
      obtain ⟨l, hvp, hlen⟩ := enemyPhase_of_lives_eq u hvl
      rcases levelClearStep_cases (flipStep (enemyPhase u).1 (enemyPhase u).2)
        with ⟨_, hcase⟩ | ⟨_, hcase⟩
      · exfalso
        rw [hcase] at hlvl
        have h2 : (flipStep (enemyPhase u).1 (enemyPhase u).2).currentLevel =
            s.currentLevel := by
          rw [hf.2.2.1, hvp]
          exact hulvl
        rw [(nextLevel_spec _).1] at hlvl
        simp only [flipStep] at hlvl h2
        omega
      · rw [hcase, hf.2.2.2.2.1, hvp]
        simpa [hlen] using hue

/-- Helper: the rebuilt grid is nonempty. -/
theorem createEnemies_ne_nil : createEnemies ≠ [] := by
  decide

/-- A completed frame (no set game-over flag, no bomb-hit early return)
never ends with an empty enemy collection: the level-advance check at the
end of the frame always repopulates it. -/
theorem tick_completed_enemies_ne_nil (s : GameState) (env : Env)
    (hg : s.gameOver = false)
    (hpend : (tick s env).pendingRespawns = s.pendingRespawns) :
    (tick s env).enemies ≠ [] := by
  have hp := preBombs_frame s env
  rcases hb : bombGo (preBombs s env) (preBombs s env).enemyBombs.reverse []
    with ⟨u, flag⟩
  cases flag with
  | true =>
    exfalso
    rw [tick_of_bombHit s env u hg hb] at hpend
    obtain ⟨_, _, _, _, _, _, c7, _⟩ := bombGo_hit _ _ _ _ hb
    rw [c7, hp.2.2.2.2.2.1] at hpend
    omega
  | false =>
    rw [tick_of_noBombHit s env u hg hb]
    rcases levelClearStep_cases (flipStep (enemyPhase u).1 (enemyPhase u).2)
      with ⟨_, hcase⟩ | ⟨hne, hcase⟩
    · rw [hcase, (nextLevel_spec _).2.2.1]
      exact createEnemies_ne_nil
    · rw [hcase]
      intro hnil
      exact hne (by rw [hnil]; rfl)

/-- When a completed frame increments the level, the whole level-advance
package happened in that same frame: bombs cleared, enemy speed recomputed
from the level formula, grid repopulated. -/
theorem tick_level_advance (s : GameState) (env : Env)
    (hg : s.gameOver = false)
    (hpend : (tick s env).pendingRespawns = s.pendingRespawns)
    (hlvl : (tick s env).currentLevel = s.currentLevel + 1) :
    (tick s env).enemyBombs = [] ∧
    (tick s env).enemies = createEnemies ∧
    (tick s env).enemySpeed =
      BASE_ENEMY_SPEED +
        (((tick s env).currentLevel : ℚ) - 1) * ENEMY_SPEED_INCREASE := by
  have hp := preBombs_frame s env
  rcases hb : bombGo (preBombs s env) (preBombs s env).enemyBombs.reverse []
    with ⟨u, flag⟩
  cases flag with
  | true =>
    exfalso
    rw [tick_of_bombHit s env u hg hb] at hpend
    obtain ⟨_, _, _, _, _, _, c7, _⟩ := bombGo_hit _ _ _ _ hb
    rw [c7, hp.2.2.2.2.2.1] at hpend
    omega
  | false =>
    have hshape := tick_of_noBombHit s env u hg hb
    rw [hshape] at hlvl ⊢
    rcases levelClearStep_cases (flipStep (enemyPhase u).1 (enemyPhase u).2)
      with ⟨_, hcase⟩ | ⟨_, hcase⟩
    · rw [hcase]
      obtain ⟨n1, n2, n3, n4, _⟩ := nextLevel_spec
        ({ (flipStep (enemyPhase u).1 (enemyPhase u).2) with enemyBombs := [] })
      refine ⟨by rw [n4], n3, ?_⟩
      rw [n2, n1]
    · exfalso
      rw [hcase] at hlvl
      have hbf := bombGo_frame (preBombs s env).enemyBombs.reverse
        ([] : List Bomb) (preBombs s env)
      rw [hb] at hbf
      have hulvl : u.currentLevel = s.currentLevel := hbf.2.2.1.trans hp.2.2.1
      have hf := flipStep_frame (enemyPhase u).1 (enemyPhase u).2
      have hev := enemyPhase_frame u
      rw [hf.2.2.1, hev.1, hulvl] at hlvl
      omega

/-! ## Player position invariant lemmas -/

theorem pxInv_of_eq (s t : GameState) (h : t.playerX = s.playerX)
    (hp : PXInv s) : PXInv t := by
  unfold PXInv at *
  rw [h]
  exact hp

theorem pxInv_of_center (t : GameState) (h : t.playerX = screenWidth / 2) :
    PXInv t := by
  refine ⟨?_, ?_, ⟨80, ?_⟩⟩ <;>
    rw [h] <;> norm_num [screenWidth, playerWidth]

theorem movePlayerStep_pxInv (s : GameState) (h : PXInv s) :
    PXInv (movePlayerStep s) := by
  obtain ⟨h0, h1, k, hk⟩ := h
  have hsw : screenWidth - playerWidth = 760 := by
    norm_num [screenWidth, playerWidth]
  rw [hsw] at h1
  have hq : (s.playerX : ℚ) = 5 * (k : ℚ) := by exact_mod_cast hk
  have hk1 : s.playerX > 0 → (1 : ℚ) ≤ (k : ℚ) := by
    intro hgt
    have hkk : (0 : ℚ) < (k : ℚ) := by
      have : (0 : ℚ) < 5 * (k : ℚ) := by rw [← hq]; exact hgt
      linarith
    have : (0 : ℤ) < k := by exact_mod_cast hkk
    exact_mod_cast this
  have hk151 : s.playerX < 760 → (k : ℚ) ≤ 151 := by
    intro hlt
    have hkk : (k : ℚ) < 152 := by
      have : 5 * (k : ℚ) < 760 := by rw [← hq]; exact hlt
      linarith
    have h152 : k < 152 := by exact_mod_cast hkk
    have : k ≤ 151 := by omega
    exact_mod_cast this
  unfold movePlayerStep
  split_ifs with hA
  · dsimp only
    split_ifs with hB
    · have hgt := hk1 hA.2
      unfold PXInv
      dsimp only
      simp only [PLAYER_SPEED, screenWidth, playerWidth]
      refine ⟨by linarith, by linarith, ⟨k, by rw [hq]; ring⟩⟩
    · have hgt := hk1 hA.2
      unfold PXInv
      dsimp only
      simp only [PLAYER_SPEED, screenWidth, playerWidth]
      refine ⟨by rw [hq]; linarith, by linarith, ⟨k - 1, by rw [hq]; push_cast; ring⟩⟩
  · dsimp only
    split_ifs with hB
    · simp only [PLAYER_SPEED, screenWidth, playerWidth] at hB
      have hle := hk151 hB.2
      unfold PXInv
      dsimp only
      simp only [PLAYER_SPEED, screenWidth, playerWidth]
      refine ⟨by linarith, by rw [hq]; linarith, ⟨k + 1, by rw [hq]; push_cast; ring⟩⟩
    · exact ⟨h0, by rw [hsw]; exact h1, ⟨k, hk⟩⟩

theorem tick_pxInv (s : GameState) (env : Env) (h : PXInv s) :
    PXInv (tick s env) := by
  by_cases hg : s.gameOver = true
  · rw [tick_of_gameOver s env hg]; exact h
  · replace hg : s.gameOver = false := by simpa using hg
    have h1 : PXInv (updatePowerUps s env.now env.rType env.rx) :=
      pxInv_of_eq s _ (updatePowerUps_frame s env.now env.rType env.rx).2.2.2.2.2.2.2.1 h
    have h2 : PXInv (movePlayerStep (updatePowerUps s env.now env.rType env.rx)) :=
      movePlayerStep_pxInv _ h1
    set s2 := movePlayerStep (updatePowerUps s env.now env.rType env.rx) with hs2
    have h3 : PXInv (if s2.space then shoot s2 env.now env.sin02 env.cos02 else s2) := by
      split_ifs with hsp
      · exact pxInv_of_eq s2 _ (shoot_frame s2 env.now env.sin02 env.cos02).2.2.2.2.2.2.1 h2
      · exact h2
    set s3 := if s2.space then shoot s2 env.now env.sin02 env.cos02 else s2 with hs3
    have h4 : PXInv (bulletPhase s3) :=
      pxInv_of_eq s3 _ (bulletPhase_frame s3).2.2.2.2.2.2.1 h3
    have h5 : PXInv (bombDropStep (bulletPhase s3) env.rBomb) :=
      pxInv_of_eq _ _ (bombDropStep_frame (bulletPhase s3) env.rBomb).2.2.2.2.2.2.2.1 h4
    have hpre : PXInv (preBombs s env) := by
      simpa only [preBombs, ← hs2, ← hs3] using h5
    rcases hb : bombGo (preBombs s env) (preBombs s env).enemyBombs.reverse []
      with ⟨u, flag⟩
    have hbf := bombGo_frame (preBombs s env).enemyBombs.reverse
      ([] : List Bomb) (preBombs s env)
    rw [hb] at hbf
    have hu : PXInv u := pxInv_of_eq _ _ hbf.2.2.2.2.2.2.2 hpre
    cases flag with
    | true => rw [tick_of_bombHit s env u hg hb]; exact hu
    | false =>
      rw [tick_of_noBombHit s env u hg hb]
      have hv : PXInv (enemyPhase u).1 := by
        rcases enemyPhase_playerX u with hpx | hpx
        · exact pxInv_of_eq u _ hpx hu
        · exact pxInv_of_center _ hpx
      have hw : PXInv (flipStep (enemyPhase u).1 (enemyPhase u).2) :=
        pxInv_of_eq _ _ (flipStep_frame _ _).2.2.2.2.2.2.2.2.1 hv
      exact pxInv_of_eq _ _ (levelClearStep_frame _).2.2.2.2.1 hw

theorem resetGame_pxInv (s : GameState) (b : Bool) : PXInv (resetGame s b) := by
  refine pxInv_of_center _ ?_
  simp [resetGame]

/-! ## Power-up activation and the at-most-one-active invariant -/

theorem allInactive_of_eq (s t : GameState) (h : t.powerUps = s.powerUps)
    (hp : AllInactive s) : AllInactive t := by
  unfold AllInactive at *
  rw [h]
  exact hp

theorem removeFirst_mem (p q : PowerUp) (l : List PowerUp)
    (h : q ∈ removeFirst p l) : q ∈ l := by
  induction l with
  | nil => simpa [removeFirst] using h
  | cons r rest ih =>
    simp only [removeFirst] at h
    split_ifs at h
    · exact List.mem_cons_of_mem r h
    · rcases List.mem_cons.mp h with h1 | h1
      · exact h1 ▸ List.mem_cons_self r rest
      · exact List.mem_cons_of_mem r (ih h1)

theorem activatePowerUp_allInactive (s : GameState) (p : PowerUp)
    (h : AllInactive s) : AllInactive (activatePowerUp s p) := by
  intro q hq
  simp only [activatePowerUp] at hq
  exact h q (removeFirst_mem p q s.powerUps hq)

theorem activeFlagCount_le_one (s : GameState) (h : AllInactive s) :
    activeFlagCount s ≤ 1 := by
  unfold activeFlagCount
  have hfil : s.powerUps.filter (fun p => p.powerUpActive) = [] := by
    rw [List.filter_eq_nil_iff]
    intro p hp
    simp [h p hp]
  rw [hfil]
  cases s.activePowerUp with
  | none => simp
  | some p =>
    dsimp only
    split_ifs <;> simp

theorem puGo_allInactive (rev kept : List PowerUp) (s : GameState)
    (hrev : ∀ p ∈ rev, p.powerUpActive = false)
    (hkept : ∀ p ∈ kept, p.powerUpActive = false) :
    AllInactive (puGo s rev kept) := by
  induction rev generalizing s kept with
  | nil =>
    intro q hq
    simp only [puGo] at hq
    exact hkept q hq
  | cons p rest ih =>
    simp only [puGo]
    split_ifs
    · exact ih _ _ (fun q hq => hrev q (List.mem_cons_of_mem p hq)) hkept
    · exact ih _ _ (fun q hq => hrev q (List.mem_cons_of_mem p hq)) hkept
    · refine ih _ _ (fun q hq => hrev q (List.mem_cons_of_mem p hq)) ?_
      intro q hq
      rcases List.mem_cons.mp hq with h1 | h1
      · rw [h1]
        exact hrev p (List.mem_cons_self p rest)
      · exact hkept q h1

theorem spawnStep_allInactive (s : GameState) (now : ℚ) (t : PowerUpType)
    (rx : ℚ) (h : AllInactive s) : AllInactive (spawnStep s now t rx) := by
  unfold spawnStep
  split_ifs
  · intro q hq
    simp only [List.mem_append, List.mem_singleton] at hq
    rcases hq with h1 | h1
    · exact h q h1
    · rw [h1]; rfl
  · exact h
  · exact h

theorem updatePowerUps_allInactive (s : GameState) (now : ℚ)
    (t : PowerUpType) (rx : ℚ) (h : AllInactive s) :
    AllInactive (updatePowerUps s now t rx) := by
  have h1 := spawnStep_allInactive s now t rx h
  have h2 : AllInactive (activeTimerStep (spawnStep s now t rx)) :=
    allInactive_of_eq _ _ (activeTimerStep_frame _).2.2.2.2.2.2.2.1 h1
  unfold updatePowerUps
  refine puGo_allInactive _ _ _ ?_ (by intro q hq; simp at hq)
  intro q hq
  exact h2 q (List.mem_reverse.mp hq)

theorem tick_allInactive (s : GameState) (env : Env) (h : AllInactive s) :
    AllInactive (tick s env) := by
  by_cases hg : s.gameOver = true
  · rw [tick_of_gameOver s env hg]; exact h
  · replace hg : s.gameOver = false := by simpa using hg
    have h1 := updatePowerUps_allInactive s env.now env.rType env.rx h
    have h2 : AllInactive (movePlayerStep (updatePowerUps s env.now env.rType env.rx)) :=
      allInactive_of_eq _ _ (movePlayerStep_frame _).2.2.2.2.2.2.2.1 h1
    set s2 := movePlayerStep (updatePowerUps s env.now env.rType env.rx) with hs2
    have h3 : AllInactive (if s2.space then shoot s2 env.now env.sin02 env.cos02 else s2) := by
      split_ifs
      · exact allInactive_of_eq _ _ (shoot_frame s2 env.now env.sin02 env.cos02).2.2.2.2.2.1 h2
      · exact h2
    set s3 := if s2.space then shoot s2 env.now env.sin02 env.cos02 else s2 with hs3
    have h4 : AllInactive (bulletPhase s3) :=
      allInactive_of_eq _ _ (bulletPhase_frame s3).2.2.2.2.2.1 h3
    have h5 : AllInactive (bombDropStep (bulletPhase s3) env.rBomb) :=
      allInactive_of_eq _ _ (bombDropStep_frame _ env.rBomb).2.2.2.2.2.2.1 h4
    have hpre : AllInactive (preBombs s env) := by
      simpa only [preBombs, ← hs2, ← hs3] using h5
    rcases hb : bombGo (preBombs s env) (preBombs s env).enemyBombs.reverse []
      with ⟨u, flag⟩
    have hbf := bombGo_frame (preBombs s env).enemyBombs.reverse
      ([] : List Bomb) (preBombs s env)
    rw [hb] at hbf
    have hu : AllInactive u := allInactive_of_eq _ _ hbf.2.2.2.2.2.2.1 hpre
    cases flag with
    | true => rw [tick_of_bombHit s env u hg hb]; exact hu
    | false =>
      rw [tick_of_noBombHit s env u hg hb]
      have hv : AllInactive (enemyPhase u).1 :=
        allInactive_of_eq _ _ (enemyPhase_frame u).2.1 hu
      have hw : AllInactive (flipStep (enemyPhase u).1 (enemyPhase u).2) :=
        allInactive_of_eq _ _ (flipStep_frame _ _).2.2.2.2.2.2.2.1 hv
      exact allInactive_of_eq _ _ (levelClearStep_frame _).2.2.2.1 hw

/-! ## Bullet-enemy hit scan lemmas -/

theorem hitFromEnd_none (bb : Box) (es : List Enemy)
    (h : hitFromEnd bb es = none) :
    ∀ e ∈ es, checkCollision bb e.box = false := by
  induction es with
  | nil => intro e he; simp at he
  | cons e0 rest ih =>
    intro e he
    simp only [hitFromEnd] at h
    rcases hr : hitFromEnd bb rest with _ | j
    · rw [hr] at h
      dsimp only at h
      split_ifs at h with hc
      rcases List.mem_cons.mp he with h1 | h1
      · rw [h1]
        simpa using hc
      · exact ih hr e h1
    · rw [hr] at h
      simp at h

/-- The scan of game.ts lines 654-671 finds the hit at the LAST index of
the collection: the enemy collection decomposes as pre ++ e :: post with
e the hit enemy, every later enemy (post) missing the bullet, and the
removal erasing exactly that occurrence. -/
theorem hitFromEnd_decomp (bb : Box) (es : List Enemy) (j : ℕ)
    (h : hitFromEnd bb es = some j) :
    ∃ pre e post, es = pre ++ e :: post ∧ j = pre.length ∧
      checkCollision bb e.box = true ∧
      (∀ e2 ∈ post, checkCollision bb e2.box = false) ∧
      es.eraseIdx j = pre ++ post ∧
      es.getD j { x := 0, y := 0, w := 0, h := 0, direction := 0 } = e := by
  induction es generalizing j with
  | nil => simp [hitFromEnd] at h
  | cons e0 rest ih =>
    simp only [hitFromEnd] at h
    rcases hr : hitFromEnd bb rest with _ | j0
    · rw [hr] at h
      dsimp only at h
      split_ifs at h with hc
      obtain rfl : (0 : ℕ) = j := by simpa using h
      refine ⟨[], e0, rest, by simp, by simp, by simpa using hc,
        hitFromEnd_none bb rest hr, by simp [List.eraseIdx], by simp⟩
    · rw [hr] at h
      dsimp only at h
      obtain rfl : j0 + 1 = j := by simpa using h
      obtain ⟨pre, e, post, hsplit, hj, hcol, hpost, herase, hget⟩ := ih j0 hr
      refine ⟨e0 :: pre, e, post, by rw [hsplit]; rfl, by simp [hj],
        hcol, hpost, ?_, ?_⟩
      · rw [List.eraseIdx_cons_succ, herase, List.cons_append]
      · simpa using hget

/-- One iteration of the bullet loop on a surviving bullet that hits:
the last-index colliding enemy is removed and one explosion is logged at
its center, and the bullet itself is consumed. -/
theorem bulletGo_hit_step (s : GameState) (b : Bullet)
    (rev kept : List Bullet) (b1 : Bullet) (j : ℕ)
    (hm : moveBullet b = some b1)
    (hh : hitFromEnd b1.box s.enemies = some j) :
    bulletGo s (b :: rev) kept =
      bulletGo
        { s with enemies := s.enemies.eraseIdx j
                 explosionLog := s.explosionLog ++
                   [(s.enemies.getD j
                      { x := 0, y := 0, w := 0, h := 0, direction := 0 }).center] }
        rev kept := by
  simp only [bulletGo, hm, hh]

/-- One iteration of the bullet loop on a surviving bullet that misses
every enemy: the bullet is kept (at its moved position) and nothing else
changes. -/
theorem bulletGo_miss_step (s : GameState) (b : Bullet)
    (rev kept : List Bullet) (b1 : Bullet)
    (hm : moveBullet b = some b1)
    (hh : hitFromEnd b1.box s.enemies = none) :
    bulletGo s (b :: rev) kept = bulletGo s rev (b1 :: kept) := by
  simp only [bulletGo, hm, hh]

/-- A frame whose bullet collection holds one bullet that survives its
move and hits: the bullet collection empties, exactly the last-index
overlapping enemy is removed, and exactly one explosion is logged at that
enemy center. -/
theorem bulletPhase_single_hit (s : GameState) (b : Bullet) (b1 : Bullet)
    (j : ℕ) (hb : s.bullets = [b]) (hm : moveBullet b = some b1)
    (hh : hitFromEnd b1.box s.enemies = some j) :
    bulletPhase s =
      { s with bullets := []
               enemies := s.enemies.eraseIdx j
               explosionLog := s.explosionLog ++
                 [(s.enemies.getD j
                    { x := 0, y := 0, w := 0, h := 0, direction := 0 }).center] } := by
  unfold bulletPhase
  rw [hb]
  simp only [List.reverse_singleton]
  rw [bulletGo_hit_step s b [] [] b1 j hm hh]
  simp [bulletGo]

/-! ## Claims -/

/-- C1 counterexample: with one life left and two enemies past the player
line in the same frame, the per-frame update deducts BOTH lives (the
return in the forEach callback only skips that enemy, not the loop), so
lives ends at -1, outside the claimed range [0, STARTING_LIVES]. -/
theorem C1_counterexample :
    cexC1.lives = 1 ∧ cexC1.gameOver = false ∧
    (tick cexC1 env0).lives = -1 ∧ (tick cexC1 env0).gameOver = true := by
  refine ⟨rfl, rfl, by decide, by decide⟩

/-- C1 (amended): for every frame of play, lives never exceeds
STARTING_LIVES, but it can drop below 0 in a frame where several enemies
reach the player (each offender deducts a life even after lives reaches
0); whenever lives is nonpositive the game-over flag is set, a set flag
suppresses all further per-frame updates and survives the deferred
bomb-hit callback, and it stays set until the explicit new-game reset
(which restores full lives). -/
theorem C1_lives_invariant :
    (∀ s env, LivesInv s → LivesInv (tick s env)) ∧
    (∀ s, LivesInv s → LivesInv (bombTimeout s)) ∧
    (∀ s env, s.gameOver = true → tick s env = s) ∧
    (∀ s, LivesInv s → s.gameOver = true → (bombTimeout s).gameOver = true) ∧
    (∀ s, LivesInv s → LivesInv (keydownR s)) ∧
    (∀ s, LivesInv (resetGame s true) ∧
      (resetGame s true).lives = STARTING_LIVES ∧
      (resetGame s true).gameOver = false) ∧
    LivesInv startState :=
  ⟨tick_livesInv, bombTimeout_livesInv, tick_of_gameOver, bombTimeout_gameOver,
   keydownR_livesInv, resetGame_new_livesInv, by constructor <;> decide⟩

/-- C1 witness: the invariant facts instantiated at concrete states. -/
theorem C1_witness :
    LivesInv (tick startState env0) ∧
    LivesInv (bombTimeout startState) ∧
    tick { startState with gameOver := true, lives := 0 } env0 =
      { startState with gameOver := true, lives := 0 } ∧
    (bombTimeout { startState with gameOver := true, lives := 0 }).gameOver = true ∧
    LivesInv (keydownR startState) ∧
    LivesInv (resetGame startState true) :=
  ⟨C1_lives_invariant.1 startState env0 ⟨by decide, by constructor <;> decide⟩,
   C1_lives_invariant.2.1 startState ⟨by decide, by constructor <;> decide⟩,
   C1_lives_invariant.2.2.1 _ env0 rfl,
   C1_lives_invariant.2.2.2.1 _ ⟨by decide, by constructor <;> decide⟩ rfl,
   C1_lives_invariant.2.2.2.2.1 startState ⟨by decide, by constructor <;> decide⟩,
   (C1_lives_invariant.2.2.2.2.2.1 startState).1⟩

/-- C2 counterexample: two enemies past the player line in the same
frame, full lives. The claim predicts exactly one deduction (lives 2
afterwards) with the second enemy left unprocessed; the code processes
both and ends at lives 1. -/
theorem C2_counterexample :
    cexC2.lives = 3 ∧
    cexC2.enemies.length = 2 ∧
    (∀ e ∈ cexC2.enemies, yOffends e) ∧
    (tick cexC2 env0).lives = 1 := by
  refine ⟨rfl, rfl, by decide, by decide⟩

/-- C2 (amended): in the per-frame enemy update, an enemy whose bottom
edge passes the player line deducts exactly one life and skips only that
enemy remaining checks (the JS return exits the callback, not the loop);
enemies that neither pass the line nor overlap the player leave the state
alone; and the loop is NOT short-circuited: every bottom-reaching enemy
of the frame snapshot deducts a life in that same frame, so lives drops
by at least the number of such enemies. -/
theorem C2_no_short_circuit :
    (∀ a e, yOffends e → (enemyStep a e).st.lives = a.st.lives - 1) ∧
    (∀ a e, ¬ yOffends e →
      checkCollision (playerBox a.st.playerX)
        (Enemy.box { e with x := e.x + a.st.enemySpeed * e.direction }) = false →
      (enemyStep a e).st = a.st) ∧
    (∀ s, (enemyPhase s).1.lives ≤ s.lives - countYOffend s.enemies) :=
  ⟨enemyStep_yOffend,
   fun a e h1 h2 => (enemyStep_quiet a e h1 h2).1,
   enemyPhase_count⟩

/-- C2 witness: a bottom-reaching enemy deducts exactly one life; a quiet
enemy changes nothing; the fold bound instantiated on the two-offender
state. -/
theorem C2_witness :
    (enemyStep acc0 (eLow 100)).st.lives = acc0.st.lives - 1 ∧
    (enemyStep acc0 (eTop 100)).st = acc0.st ∧
    (enemyPhase cexC2).1.lives ≤ cexC2.lives - countYOffend cexC2.enemies :=
  ⟨C2_no_short_circuit.1 acc0 (eLow 100) (by decide),
   C2_no_short_circuit.2.1 acc0 (eTop 100) (by decide) (by decide),
   C2_no_short_circuit.2.2 cexC2⟩

/-- C3 counterexample: one bullet overlapping (after its move) BOTH
enemies of the collection. The claim says the first overlap in collection
order (index 0) is destroyed and the explosion appears at the midpoint of
the colliding pair; the code destroys the LAST-index enemy (index 1),
lets the index-0 enemy survive, and logs the explosion at the destroyed
enemy center (122, 294/5), not at the pair midpoint (471/4, 297/5). -/
theorem C3_counterexample :
    cexC3.enemies = [eTop 100, eTop 110] ∧
    (∀ e ∈ cexC3.enemies,
      checkCollision
        (Bullet.box { x := 112, y := 55, dx := none, dy := none, bounceCount := none })
        e.box = true) ∧
    (tick cexC3 env0).bullets = [] ∧
    (tick cexC3 env0).enemies =
      [{ x := 201/2, y := 50, w := 24, h := 88/5, direction := 1 }] ∧
    (tick cexC3 env0).explosionLog = [(122, 294/5)] ∧
    (eTop 110).center = (122, 294/5) ∧
    (tick cexC3 env0).explosionLog ≠ [(471/4, 297/5)] := by
  refine ⟨rfl, by decide, by decide, by decide, by decide, by decide, by decide⟩

/-- C3 (amended): when a surviving bullet overlaps a live enemy, both are
removed within that same frame and exactly one explosion is spawned at
the destroyed enemy center; the bullet destroys at most one enemy per
frame, namely the first overlap found scanning the enemy collection from
the LAST index downward (every enemy after the removed one misses the
bullet), and further enemy checks for that bullet stop. -/
theorem C3_bullet_hit :
    (∀ bb es j, hitFromEnd bb es = some j →
      ∃ pre e post, es = pre ++ e :: post ∧ j = pre.length ∧
        checkCollision bb e.box = true ∧
        (∀ e2 ∈ post, checkCollision bb e2.box = false) ∧
        es.eraseIdx j = pre ++ post ∧
        es.getD j { x := 0, y := 0, w := 0, h := 0, direction := 0 } = e) ∧
    (∀ bb es, hitFromEnd bb es = none →
      ∀ e ∈ es, checkCollision bb e.box = false) ∧
    (∀ s b b1 j, s.bullets = [b] → moveBullet b = some b1 →
      hitFromEnd b1.box s.enemies = some j →
      bulletPhase s =
        { s with bullets := []
                 enemies := s.enemies.eraseIdx j
                 explosionLog := s.explosionLog ++
                   [(s.enemies.getD j
                      { x := 0, y := 0, w := 0, h := 0, direction := 0 }).center] }) :=
  ⟨hitFromEnd_decomp, hitFromEnd_none,
   fun s b b1 j hb hm hh => bulletPhase_single_hit s b b1 j hb hm hh⟩

/-- C3 witness: the scan and removal instantiated on the two-enemy
state. -/
theorem C3_witness :
    bulletPhase cexC3 =
      { cexC3 with
          bullets := []
          enemies := cexC3.enemies.eraseIdx 1
          explosionLog := cexC3.explosionLog ++
            [(cexC3.enemies.getD 1
               { x := 0, y := 0, w := 0, h := 0, direction := 0 }).center] } :=
  C3_bullet_hit.2.2 cexC3
    { x := 112, y := 62, dx := none, dy := none, bounceCount := none }
    { x := 112, y := 55, dx := none, dy := none, bounceCount := none }
    1 rfl (by decide) (by decide)

/-- C4 counterexample: (a) with no power-up, a shot fires 1 ms after the
previous one (no cooldown-timer gate exists on the non-RapidFire path);
(b) with RapidFire active and the fire key held, a cleared can-fire latch
blocks the shot even though the rapid cooldown has long elapsed, so
RapidFire is not free of fire-key-release gating when the latch is
down. -/
theorem C4_counterexample :
    ((1000 : ℚ) - cexC4.shootTimer < BULLET_COOLDOWN ∧
      cexC4.activePowerUp = none ∧ cexC4.canShoot = true ∧
      (shoot cexC4 1000 0 1).bullets.length = cexC4.bullets.length + 1) ∧
    (activeType cexC4R .rapidFire = true ∧ cexC4R.canShoot = false ∧
      (1000000 : ℚ) - cexC4R.shootTimer ≥ BULLET_COOLDOWN / 5 ∧
      shoot cexC4R 1000000 0 1 = cexC4R) := by
  refine ⟨⟨by decide, rfl, rfl, by decide⟩, ⟨by decide, rfl, by decide, by decide⟩⟩

/-! ## Shoot gating lemmas -/

theorem shoot_latch_blocked (s : GameState) (now a b : ℚ)
    (h : s.canShoot = false) : shoot s now a b = s := by
  simp [shoot, h]

theorem activeType_excl (s : GameState)
    (h : activeType s .rapidFire = true) :
    activeType s .laser = false ∧ activeType s .tripleShot = false := by
  unfold activeType at *
  cases hp : s.activePowerUp with
  | none => rw [hp] at h; simp at h
  | some p =>
    rw [hp] at h
    dsimp only at h ⊢
    have ht := of_decide_eq_true h
    rw [ht]
    exact ⟨rfl, rfl⟩

theorem shoot_normal_spec (s : GameState) (now a b : ℚ)
    (hr : activeType s .rapidFire = false) (hc : s.canShoot = true)
    (hs : s.space = true) :
    (shoot s now a b).canShoot = false ∧
    (shoot s now a b).shootTimer = now ∧
    (shoot s now a b).activePowerUp = s.activePowerUp := by
  cases hp : s.activePowerUp with
  | none => simp [shoot, activeType, hp, hc, hs]
  | some p =>
    cases hq : p.powerUpType with
    | laser => simp [shoot, activeType, hp, hq, hc, hs]
    | rapidFire =>
      exfalso
      rw [activeType, hp] at hr
      simp [hq] at hr
    | tripleShot => simp [shoot, activeType, hp, hq, hc, hs]

theorem shoot_once_per_press (s : GameState) (now now2 a b : ℚ)
    (hr : activeType s .rapidFire = false) (hc : s.canShoot = true)
    (hs : s.space = true) :
    shoot (shoot s now a b) now2 a b = shoot s now a b :=
  shoot_latch_blocked _ now2 a b (shoot_normal_spec s now a b hr hc hs).1

theorem shoot_rapid_spec (s : GameState) (now a b : ℚ)
    (hr : activeType s .rapidFire = true) (hc : s.canShoot = true) :
    (now - s.shootTimer < BULLET_COOLDOWN / 5 → shoot s now a b = s) ∧
    (¬ now - s.shootTimer < BULLET_COOLDOWN / 5 →
      (shoot s now a b).bullets = s.bullets ++ [mkBullet s.playerX] ∧
      (shoot s now a b).canShoot = s.canShoot ∧
      (shoot s now a b).shootTimer = now) := by
  constructor
  · intro hcool
    simp [shoot, hr, hc, hcool]
  · intro hcool
    cases hp : s.activePowerUp with
    | none =>
      exfalso
      rw [activeType, hp] at hr
      simp at hr
    | some p =>
      have hq : p.powerUpType = .rapidFire := by
        rw [activeType, hp] at hr
        exact of_decide_eq_true hr
      simp [shoot, activeType, hp, hq, hc, hcool, mkBullet]

/-- C4 (amended): the shoot operation is gated by the can-fire latch,
which is set only on fire-input release and cleared after each
non-RapidFire shot, so at most one shot per press without RapidFire; no
cooldown timer gates non-RapidFire shots (the shot timestamp is recorded
but only read under RapidFire). When RapidFire is active and the latch is
set, the inter-shot cooldown equals 1/5 of the baseline cooldown and
shots continue while the fire input is held, with the latch left set (so
no release is needed between rapid shots). -/
theorem C4_shoot_gating :
    (∀ s now a b, s.canShoot = false → shoot s now a b = s) ∧
    (∀ s now a b, activeType s .rapidFire = false → s.canShoot = true →
      s.space = true →
      (shoot s now a b).canShoot = false ∧
      (shoot s now a b).shootTimer = now ∧
      (shoot s now a b).activePowerUp = s.activePowerUp) ∧
    (∀ s now now2 a b, activeType s .rapidFire = false → s.canShoot = true →
      s.space = true →
      shoot (shoot s now a b) now2 a b = shoot s now a b) ∧
    (∀ s, (keyupSpace s).canShoot = true ∧ (keyupSpace s).space = false) ∧
    (∀ s now a b, activeType s .rapidFire = true → s.canShoot = true →
      (now - s.shootTimer < BULLET_COOLDOWN / 5 → shoot s now a b = s) ∧
      (¬ now - s.shootTimer < BULLET_COOLDOWN / 5 →
        (shoot s now a b).bullets = s.bullets ++ [mkBullet s.playerX] ∧
        (shoot s now a b).canShoot = s.canShoot ∧
        (shoot s now a b).shootTimer = now)) :=
  ⟨shoot_latch_blocked, shoot_normal_spec, shoot_once_per_press,
   fun s => ⟨rfl, rfl⟩, shoot_rapid_spec⟩

/-- C4 witness: the gates instantiated at concrete states. -/
theorem C4_witness :
    shoot { startState with canShoot := false } 0 0 1 =
      { startState with canShoot := false } ∧
    (shoot cexC4 1000 0 1).canShoot = false ∧
    shoot (shoot cexC4 1000 0 1) 1001 0 1 = shoot cexC4 1000 0 1 ∧
    (keyupSpace startState).canShoot = true ∧
    shoot { cexC4R with canShoot := true } 50 0 1 =
      { cexC4R with canShoot := true } ∧
    (shoot { cexC4R with canShoot := true } 200 0 1).bullets =
      { cexC4R with canShoot := true }.bullets ++
        [mkBullet { cexC4R with canShoot := true }.playerX] :=
  ⟨C4_shoot_gating.1 _ 0 0 1 rfl,
   (C4_shoot_gating.2.1 cexC4 1000 0 1 (by decide) rfl rfl).1,
   C4_shoot_gating.2.2.1 cexC4 1000 1001 0 1 (by decide) rfl rfl,
   (C4_shoot_gating.2.2.2.1 startState).1,
   (C4_shoot_gating.2.2.2.2 _ 50 0 1 (by decide) rfl).1 (by decide),
   ((C4_shoot_gating.2.2.2.2 _ 200 0 1 (by decide) rfl).2 (by decide)).1⟩

/-- C5 counterexample: mid-level state with a single enemy that reaches
the player while two lives remain: the life-lost reset repopulates the
full grid, so the enemy collection GROWS from 1 to 24 while the level is
unchanged. -/
theorem C5_counterexample :
    cexC5.enemies.length = 1 ∧ cexC5.lives = 3 ∧
    (tick cexC5 env0).currentLevel = cexC5.currentLevel ∧
    (tick cexC5 env0).enemies.length = 24 := by
  refine ⟨rfl, rfl, by decide, by decide⟩

/-- C5 (amended): within a single level the enemy collection never grows
in a frame that loses no life (its size is non-increasing, though not
strictly decreasing on quiet frames); a life-lost reset repopulates the
full grid mid-level; and the end-of-frame check on an empty collection
always advances the level and never sets game-over or touches lives. -/
theorem C5_enemy_count :
    (∀ s env, (tick s env).lives = s.lives →
      (tick s env).currentLevel = s.currentLevel →
      (tick s env).enemies.length ≤ s.enemies.length) ∧
    (∀ s, s.enemies.length = 0 →
      levelClearStep s = nextLevel { s with enemyBombs := [] } ∧
      (levelClearStep s).currentLevel = s.currentLevel + 1 ∧
      (levelClearStep s).gameOver = s.gameOver ∧
      (levelClearStep s).lives = s.lives) := by
  refine ⟨fun s env h1 h2 => tick_enemies_length s env h1 h2, fun s h => ?_⟩
  rcases levelClearStep_cases s with ⟨_, hcase⟩ | ⟨hne, _⟩
  · obtain ⟨n1, _, _, _, n5, n6⟩ := nextLevel_spec { s with enemyBombs := [] }
    refine ⟨hcase, ?_, ?_, ?_⟩ <;> rw [hcase]
    · rw [n1]
    · rw [n6]
    · rw [n5]
  · exact absurd h hne

set_option maxRecDepth 8000 in
/-- C5 witness: the bound on a full frame of the start state, and the
advance on an emptied collection. -/
theorem C5_witness :
    (tick startState env0).enemies.length ≤ startState.enemies.length ∧
    (levelClearStep { startState with enemies := [] }).currentLevel =
      { startState with enemies := [] }.currentLevel + 1 ∧
    (levelClearStep { startState with enemies := [] }).gameOver =
      { startState with enemies := [] }.gameOver :=
  ⟨C5_enemy_count.1 startState env0 (by decide) (by decide),
   (C5_enemy_count.2 _ (by decide)).2.1,
   (C5_enemy_count.2 _ (by decide)).2.2.1⟩

/-- Pickup iteration of the power-up loop: an on-screen instance that
overlaps the player is installed as the single active power-up (with the
fixed duration and its active flag set), replacing whatever was in the
slot, and is not kept in the on-screen collection. -/
theorem puGo_pickup (s : GameState) (p : PowerUp) (rev kept : List PowerUp)
    (h1 : ¬ ({ p with y := p.y + 1 } : PowerUp).y > screenHeight)
    (h2 : checkCollision (PowerUp.box { p with y := p.y + 1 })
      (playerBox s.playerX) = true) :
    puGo s (p :: rev) kept =
      puGo { s with
        activePowerUp := some (PowerUp.activated { p with y := p.y + 1 }) }
        rev kept := by
  simp only [puGo, PowerUp.activated]
  rw [if_neg h1, if_pos h2]

/-- C6: at most one power-up is ever in the Active state. The
activatePowerUp routine installs the picked-up instance as the single
active slot entry with the fixed 10 s duration and removes it from the
on-screen collection (the prior slot entry is discarded, hence
deactivated); the in-loop pickup does the same; the collection holds only
inactive instances at start, that stays true across every frame, and
under it at most one tracked instance has its active flag set. -/
theorem C6_single_active :
    (∀ s p, (activatePowerUp s p).activePowerUp = some (PowerUp.activated p) ∧
      (activatePowerUp s p).powerUps = removeFirst p s.powerUps) ∧
    POWER_UP_DURATION = 10000 ∧
    (∀ s p, AllInactive s → AllInactive (activatePowerUp s p)) ∧
    (∀ s p rev kept,
      ¬ ({ p with y := p.y + 1 } : PowerUp).y > screenHeight →
      checkCollision (PowerUp.box { p with y := p.y + 1 })
        (playerBox s.playerX) = true →
      puGo s (p :: rev) kept =
        puGo { s with
          activePowerUp := some (PowerUp.activated { p with y := p.y + 1 }) }
          rev kept) ∧
    (∀ s, AllInactive s → activeFlagCount s ≤ 1) ∧
    (∀ s env, AllInactive s → AllInactive (tick s env)) ∧
    AllInactive startState :=
  ⟨fun s p => ⟨rfl, rfl⟩, rfl, activatePowerUp_allInactive, puGo_pickup,
   activeFlagCount_le_one, tick_allInactive, by decide⟩

/-- C6 witness: activation and the invariant instantiated at a concrete
state holding one descending instance that overlaps the player. -/
theorem C6_witness :
    (activatePowerUp witC6 witPU).activePowerUp =
      some (PowerUp.activated witPU) ∧
    AllInactive (activatePowerUp witC6 witPU) ∧
    activeFlagCount (activatePowerUp witC6 witPU) ≤ 1 ∧
    puGo witC6 [witPU] [] =
      puGo { witC6 with
        activePowerUp := some (PowerUp.activated { witPU with y := witPU.y + 1 }) }
        [] [] ∧
    AllInactive (tick witC6 env0) :=
  ⟨(C6_single_active.1 witC6 witPU).1,
   C6_single_active.2.2.1 witC6 witPU (by decide),
   C6_single_active.2.2.2.2.1 _ (by decide),
   C6_single_active.2.2.2.1 witC6 witPU [] [] (by decide) (by decide),
   C6_single_active.2.2.2.2.2.1 witC6 env0 (by decide)⟩

/-- C7: per-frame behavior of a triple-shot bullet (one with dx, dy and
bounceCount all present): it advances by its velocity; on reaching a side
bound the horizontal velocity is negated, the position clamped into
[0, screenWidth] and the bounce count incremented; it is discarded
immediately on reaching the top bound (even in a corner, where the side
bounce is applied first but the bullet is discarded in the same frame, so
no bounce off the top is ever observed); otherwise it is discarded on
passing the bottom bound or once its bounce count exceeds 3, whichever
comes first, the fourth side crossing being discarded in its own frame. -/
theorem C7_triple_bullet (b : Bullet) (dx dy : ℚ) (bc : ℕ)
    (h1 : b.dx = some dx) (h2 : b.dy = some dy) (h3 : b.bounceCount = some bc) :
    moveBullet b = moveTriple b dx dy bc ∧
    (b.y + dy ≤ 0 → moveTriple b dx dy bc = none) ∧
    (0 < b.y + dy → (b.x + dx ≤ 0 ∨ b.x + dx ≥ screenWidth) →
      b.y + dy ≤ screenHeight → bc + 1 ≤ 3 →
      moveTriple b dx dy bc =
        some { x := max 0 (min (b.x + dx) screenWidth), y := b.y + dy,
               dx := some (-dx), dy := some dy, bounceCount := some (bc + 1) }) ∧
    (0 < b.y + dy → (b.x + dx ≤ 0 ∨ b.x + dx ≥ screenWidth) →
      (screenHeight < b.y + dy ∨ 3 < bc + 1) →
      moveTriple b dx dy bc = none) ∧
    (0 < b.y + dy → ¬ (b.x + dx ≤ 0 ∨ b.x + dx ≥ screenWidth) →
      (screenHeight < b.y + dy ∨ 3 < bc) →
      moveTriple b dx dy bc = none) ∧
    (0 < b.y + dy → ¬ (b.x + dx ≤ 0 ∨ b.x + dx ≥ screenWidth) →
      b.y + dy ≤ screenHeight → bc ≤ 3 →
      moveTriple b dx dy bc =
        some { x := b.x + dx, y := b.y + dy, dx := some dx, dy := some dy,
               bounceCount := some bc }) := by
  refine ⟨by simp [moveBullet, h1, h2, h3], ?_, ?_, ?_, ?_, ?_⟩
  · intro hy
    simp only [moveTriple]
    rw [if_pos hy]
  · intro hy hside hybot hbc
    have hs : (decide (b.x + dx ≤ 0) || decide (b.x + dx ≥ screenWidth)) = true := by
      rcases hside with h | h <;> simp [h]
    simp only [moveTriple, hs, if_true]
    rw [if_neg (by simpa using hy)]
    rw [if_neg (by push_neg; exact ⟨hybot, by omega⟩)]
  · intro hy hside hover
    have hs : (decide (b.x + dx ≤ 0) || decide (b.x + dx ≥ screenWidth)) = true := by
      rcases hside with h | h <;> simp [h]
    simp only [moveTriple, hs, if_true]
    rw [if_neg (by simpa using hy)]
    rw [if_pos hover]
  · intro hy hside hover
    have hs : (decide (b.x + dx ≤ 0) || decide (b.x + dx ≥ screenWidth)) = false := by
      push_neg at hside
      simp [hside.1, hside.2]
    simp only [moveTriple, hs, Bool.false_eq_true, if_false]
    rw [if_neg (by simpa using hy)]
    rw [if_pos hover]
  · intro hy hside hybot hbc
    have hs : (decide (b.x + dx ≤ 0) || decide (b.x + dx ≥ screenWidth)) = false := by
      push_neg at hside
      simp [hside.1, hside.2]
    simp only [moveTriple, hs, Bool.false_eq_true, if_false]
    rw [if_neg (by simpa using hy)]
    rw [if_neg (by push_neg; exact ⟨hybot, by omega⟩)]

/-- C7 witness: a left-bound bounce, a top-bound discard with no bounce
observed, and a bounce-limit discard, all at concrete bullets. -/
theorem C7_witness :
    moveBullet witTriple =
      some { x := 0, y := 296, dx := some 5, dy := some (-4),
             bounceCount := some 1 } ∧
    moveTriple { witTriple with y := 2 } (-5) (-4) 0 = none ∧
    moveTriple { witTriple with x := 400, bounceCount := some 4 } (-5) (-4) 4 = none := by
  have h := C7_triple_bullet witTriple (-5) (-4) 0 rfl rfl rfl
  have h2 := C7_triple_bullet { witTriple with y := 2 } (-5) (-4) 0 rfl rfl rfl
  have h3 := C7_triple_bullet { witTriple with x := 400, bounceCount := some 4 }
    (-5) (-4) 4 rfl rfl rfl
  refine ⟨?_, ?_, ?_⟩
  · rw [h.1, h.2.2.1 (by decide) (by decide) (by decide) (by decide)]
    decide
  · rw [h2.2.1 (by decide)]
  · rw [h3.2.2.2.2.1 (by decide) (by decide) (by decide)]

/-- C8 counterexample: the lone enemy dies to the bullet this frame, but
the same frame a bomb reaches the player, and the bomb-hit return skips
the level-advance check: the collection transitions non-empty to empty
with the level unchanged in that update. -/
theorem C8_counterexample :
    cexC8.enemies.length = 1 ∧
    (tick cexC8 env0).enemies = [] ∧
    (tick cexC8 env0).currentLevel = cexC8.currentLevel ∧
    (tick cexC8 env0).enemySpeed = cexC8.enemySpeed ∧
    (tick cexC8 env0).pendingRespawns = cexC8.pendingRespawns + 1 := by
  refine ⟨rfl, by decide, by decide, by decide, by decide⟩

/-- C8 (amended): the end-of-frame check on an empty enemy collection
clears all remaining bombs, increments the level by 1, recomputes the
enemy speed as BASE + (level - 1) * INCREMENT exactly and repopulates the
grid with ENEMY_ROWS rows of ENEMIES_PER_ROW enemies at the fixed
spacing; an update not cut short by a bomb-player collision never ends
with an empty collection, and whenever such an update increments the
level the whole advance package happened in that same update. A frame
cut short by a bomb hit (observable as a newly scheduled respawn
callback) leaves the transition to be handled by the next completed
update. -/
theorem C8_level_advance :
    (∀ s, s.enemies.length = 0 →
      (levelClearStep s).enemyBombs = [] ∧
      (levelClearStep s).currentLevel = s.currentLevel + 1 ∧
      (levelClearStep s).enemies = createEnemies ∧
      (levelClearStep s).enemySpeed = BASE_ENEMY_SPEED +
        (((levelClearStep s).currentLevel : ℚ) - 1) * ENEMY_SPEED_INCREASE) ∧
    createEnemies.length = ENEMY_ROWS * ENEMIES_PER_ROW ∧
    (∀ r, r < ENEMY_ROWS → ∀ c, c < ENEMIES_PER_ROW →
      createEnemies.getD (r * ENEMIES_PER_ROW + c)
        { x := 0, y := 0, w := 0, h := 0, direction := 0 } = mkEnemy r c) ∧
    (∀ s env, s.gameOver = false →
      (tick s env).pendingRespawns = s.pendingRespawns →
      (tick s env).enemies ≠ []) ∧
    (∀ s env, s.gameOver = false →
      (tick s env).pendingRespawns = s.pendingRespawns →
      (tick s env).currentLevel = s.currentLevel + 1 →
      (tick s env).enemyBombs = [] ∧ (tick s env).enemies = createEnemies ∧
      (tick s env).enemySpeed = BASE_ENEMY_SPEED +
        (((tick s env).currentLevel : ℚ) - 1) * ENEMY_SPEED_INCREASE) := by
  refine ⟨fun s h => ?_, by decide, by decide,
    tick_completed_enemies_ne_nil, tick_level_advance⟩
  rcases levelClearStep_cases s with ⟨_, hcase⟩ | ⟨hne, _⟩
  · obtain ⟨n1, n2, n3, n4, _⟩ := nextLevel_spec { s with enemyBombs := [] }
    refine ⟨?_, ?_, ?_, ?_⟩ <;> rw [hcase]
    · rw [n4]
    · rw [n1]
    · exact n3
    · rw [n2, n1]
  · exact absurd h hne

set_option maxRecDepth 8000 in
/-- C8 witness: the advance package on an emptied collection, and a
completed frame of the start state ending non-empty. -/
theorem C8_witness :
    (levelClearStep { startState with enemies := [] }).currentLevel =
      { startState with enemies := [] }.currentLevel + 1 ∧
    (levelClearStep { startState with enemies := [] }).enemyBombs = [] ∧
    (tick startState env0).enemies ≠ [] :=
  ⟨(C8_level_advance.1 _ (by decide)).2.1,
   (C8_level_advance.1 _ (by decide)).1,
   C8_level_advance.2.2.2.1 startState env0 rfl (by decide)⟩

/-- C9: the player moves by the fixed speed per direction flag, and for
every reachable position (within bounds and a multiple of the speed, as
established at start and at every reset and preserved by every frame)
the position after the movement step stays within
[0, screenWidth - playerWidth]. -/
theorem C9_player_clamped :
    (∀ s, PXInv s → PXInv (movePlayerStep s)) ∧
    (∀ s env, PXInv s → PXInv (tick s env)) ∧
    (∀ s b, PXInv (resetGame s b)) ∧
    PXInv startState ∧
    (∀ s, s.left = false → s.right = false →
      (movePlayerStep s).playerX = s.playerX) ∧
    (∀ s, s.left = true → s.right = false → s.playerX > 0 →
      (movePlayerStep s).playerX = s.playerX - PLAYER_SPEED) ∧
    (∀ s, s.left = false → s.right = true →
      s.playerX < screenWidth - playerWidth →
      (movePlayerStep s).playerX = s.playerX + PLAYER_SPEED) := by
  refine ⟨movePlayerStep_pxInv, tick_pxInv, resetGame_pxInv,
    ⟨by decide, by decide, ⟨80, by decide⟩⟩, ?_, ?_, ?_⟩
  · intro s hl hr
    simp [movePlayerStep, hl, hr]
  · intro s hl hr hx
    simp [movePlayerStep, hl, hr, hx]
  · intro s hl hr hx
    simp [movePlayerStep, hl, hr, hx]

set_option maxRecDepth 8000 in
/-- C9 witness: the invariant and the moves instantiated at concrete
states. -/
theorem C9_witness :
    PXInv (movePlayerStep { startState with left := true }) ∧
    PXInv (tick startState env0) ∧
    PXInv (resetGame startState false) ∧
    (movePlayerStep { startState with left := true }).playerX =
      { startState with left := true }.playerX - PLAYER_SPEED :=
  ⟨C9_player_clamped.1 _ ⟨by decide, by decide, ⟨80, by decide⟩⟩,
   C9_player_clamped.2.1 startState env0 ⟨by decide, by decide, ⟨80, by decide⟩⟩,
   C9_player_clamped.2.2.1 startState false,
   C9_player_clamped.2.2.2.2.2.1 _ rfl rfl (by decide)⟩

/-- Behavior of the deferred bomb-hit callback: life decrement first,
then the respawn-or-game-over decision. -/
theorem bombTimeout_spec (s : GameState) :
    (bombTimeout s).lives = s.lives - 1 ∧
    (s.lives - 1 ≤ 0 → (bombTimeout s).gameOver = true ∧
      (bombTimeout s).gameOverTextVisible = true) ∧
    (0 < s.lives - 1 → (bombTimeout s).gameOver = false ∧
      (bombTimeout s).playerVisible = true ∧
      (bombTimeout s).currentLevel = s.currentLevel ∧
      (bombTimeout s).enemies = createEnemies) := by
  simp only [bombTimeout, resetGame]
  split_ifs with h <;>
    refine ⟨by simp_all, fun h1 => ?_, fun h2 => ?_⟩ <;> simp_all <;> omega

/-- C10: a bomb overlapping the player makes the per-frame update return
immediately after removing that bomb, logging the explosion at the player
center and hiding the player; at most one bomb hit is processed per frame
(exactly one respawn callback is scheduled and one explosion logged), the
bombs not yet reached by the loop are left at their original unmoved
positions, enemies are neither moved nor checked (the enemy collection is
exactly as the bullet pass left it), the level-advance check is skipped
(level unchanged), and the life decrement with the respawn-or-game-over
decision happens only in the callback scheduled with the fixed 500 ms
delay. -/
theorem C10_bomb_hit_frame :
    (∀ s rev kept u, bombGo s rev kept = (u, true) →
      u.lives = s.lives ∧ u.gameOver = s.gameOver ∧
      u.currentLevel = s.currentLevel ∧ u.enemies = s.enemies ∧
      u.bullets = s.bullets ∧ u.playerVisible = false ∧
      u.pendingRespawns = s.pendingRespawns + 1 ∧
      u.explosionLog = s.explosionLog ++
        [(s.playerX + playerWidth / 2, playerY + playerHeight / 2)] ∧
      ∃ l1 b l2 kept2, rev = l1 ++ b :: l2 ∧
        checkCollision (playerBox s.playerX)
          (Bomb.box { b with y := b.y + BOMB_SPEED }) = true ∧
        u.enemyBombs = l2.reverse ++ kept2) ∧
    (∀ s env u, s.gameOver = false →
      bombGo (preBombs s env) (preBombs s env).enemyBombs.reverse [] =
        (u, true) →
      tick s env = u) ∧
    RESPAWN_DELAY_MS = 500 ∧
    (∀ s, (bombTimeout s).lives = s.lives - 1 ∧
      (s.lives - 1 ≤ 0 → (bombTimeout s).gameOver = true ∧
        (bombTimeout s).gameOverTextVisible = true) ∧
      (0 < s.lives - 1 → (bombTimeout s).gameOver = false ∧
        (bombTimeout s).playerVisible = true ∧
        (bombTimeout s).currentLevel = s.currentLevel ∧
        (bombTimeout s).enemies = createEnemies)) :=
  ⟨fun s rev kept u h => bombGo_hit rev kept s u h,
   tick_of_bombHit, rfl, bombTimeout_spec⟩

/-- C10 witness: the early return on a concrete bomb-hit frame and the
deferred decision at one and at two lives. -/
theorem C10_witness :
    tick witC10 env0 = witC10u ∧
    witC10u.pendingRespawns = witC10.pendingRespawns + 1 ∧
    witC10u.playerVisible = false ∧
    witC10u.enemies = witC10.enemies ∧
    (bombTimeout { startState with lives := 1 }).gameOver = true ∧
    (bombTimeout { startState with lives := 2 }).gameOver = false :=
  ⟨C10_bomb_hit_frame.2.1 witC10 env0 witC10u rfl (by decide),
   by decide, by decide, by decide,
   ((C10_bomb_hit_frame.2.2.2 { startState with lives := 1 }).2.1 (by decide)).1,
   ((C10_bomb_hit_frame.2.2.2 { startState with lives := 2 }).2.2 (by decide)).1⟩

end RatReducible

end SpaceInvaders
